import Mathlib

/-!
Shallow embedding of the agorio agent SDK core (TypeScript) in Lean 4,
with verification of the specified properties.

Source files embedded:
- src/src/agent/shopping-agent.ts   (ShoppingAgent: run / runStream / tools)
- src/unnamed/part_015              (UcpClient: discover / callApi / normalizers)
- src/unnamed/part_016              (AcpClient and McpClient)
- src/src/types/index.ts            (shared data types)

Modelling conventions:
- JavaScript objects/JSON values are modelled by the `Json` type below.
- Machine floating point appears only in `calculateSubtotal`
  (`parseFloat`/`toFixed`); it is modelled with exact rationals, which agree
  with JS semantics on the small in-range decimal literals the program uses.
- Wall-clock reads (`Date.now()`, `new Date().toISOString()`) are abstracted
  to the constants 0 / "" — no verified property depends on them.
- Network interactions (fetch) are oracles supplied in an environment
  structure; an oracle maps a request to the outcome the server produced.
-/

namespace Agorio

/-! ### JSON value model

JavaScript runtime values flowing through the agent (tool arguments, tool
results, HTTP bodies) are modelled by `Json`.  Numbers are modelled as
integers: every number the embedded code paths produce or consume is a small
integer (quantities, pages, limits, ids, minor-unit amounts). -/

mutual

inductive Json where
  | null
  | bool (b : Bool)
  | num (n : Int)
  | str (s : String)
  | arr (elems : JsonList)
  | obj (fields : JsonFields)
deriving DecidableEq

inductive JsonList where
  | nil
  | cons (hd : Json) (tl : JsonList)
deriving DecidableEq

inductive JsonFields where
  | nil
  | cons (key : String) (val : Json) (tl : JsonFields)
deriving DecidableEq

end

/-- Build a `JsonList` from a Lean list. -/
def jlist : List Json → JsonList
  | [] => .nil
  | x :: xs => .cons x (jlist xs)

/-- Build a `JsonFields` from a Lean association list. -/
def jfields : List (String × Json) → JsonFields
  | [] => .nil
  | (k, v) :: xs => .cons k v (jfields xs)

/-- JSON array literal. -/
def jarr (xs : List Json) : Json := .arr (jlist xs)

/-- JSON object literal. -/
def jobj (fs : List (String × Json)) : Json := .obj (jfields fs)

/-- Map a function over a Lean list and build a JSON array from the results
(models `xs.map(f)` appearing inside an object literal). -/
def jarrMap (f : α → Json) (xs : List α) : Json := jarr (xs.map f)

/-- Lookup of a field in a JSON object's field list (first match). -/
def JsonFields.lookup : JsonFields → String → Option Json
  | .nil, _ => none
  | .cons k v tl, key => if k = key then some v else tl.lookup key

/-- Property access `j.key`: defined on objects, `undefined` (here: `none`)
otherwise.  (Access on `null`/`undefined` would throw in JS; such accesses do
not occur on the embedded paths.) -/
def Json.get? : Json → String → Option Json
  | .obj fs, key => fs.lookup key
  | _, _ => none

/-- Nullish property access, modelling `j.key ?? fallback` chains: a field
whose value is JSON `null` behaves like an absent field for `??`. -/
def Json.getNN : Json → String → Option Json
  | j, key => match j.get? key with
    | some .null => none
    | o => o

/-- JavaScript truthiness of a runtime value. -/
def Json.truthy : Json → Bool
  | .null => false
  | .bool b => b
  | .num n => n != 0
  | .str s => s != ""
  | .arr _ => true
  | .obj _ => true

/-- Coercion used for `x as string` reads of JSON fields on the embedded
paths: the value is a string there; other shapes are outside the modelled
domain and map to `""`. -/
def jstr : Option Json → String
  | some (.str s) => s
  | _ => ""

/-- Escape the characters `"` and `\` (the only escapes the embedded strings
can need; `JSON.stringify` escapes more control characters, none of which
occur on the embedded paths). -/
def escapeStr (s : String) : String :=
  String.mk (s.data.flatMap fun c =>
    if c = '"' ∨ c = '\\' then ['\\', c] else [c])

mutual

/-- Model of `JSON.stringify` on the `Json` value model. -/
def stringify : Json → String
  | .null => "null"
  | .bool b => if b then "true" else "false"
  | .num n => toString n
  | .str s => "\"" ++ escapeStr s ++ "\""
  | .arr xs => "[" ++ stringifyList xs ++ "]"
  | .obj fs => "\x7b" ++ stringifyFields fs ++ "\x7d"

def stringifyList : JsonList → String
  | .nil => ""
  | .cons x .nil => stringify x
  | .cons x tl => stringify x ++ "," ++ stringifyList tl

def stringifyFields : JsonFields → String
  | .nil => ""
  | .cons k v .nil => "\"" ++ escapeStr k ++ "\":" ++ stringify v
  | .cons k v tl => "\"" ++ escapeStr k ++ "\":" ++ stringify v ++ "," ++ stringifyFields tl

end

/-- The `{error: <message>}` payload shape used throughout the agent. -/
def errObj (msg : String) : Json := jobj [("error", .str msg)]

/-! ### Character-list string primitives

Models of the JS string operations used by the embedded code, defined by
structural recursion over the character list (so that concrete instances
evaluate definitionally). -/

/-- Model of `String.prototype.startsWith`. -/
def strStartsWith (s pre : String) : Bool :=
  pre.data.isPrefixOf s.data

/-- Model of `String.prototype.toLowerCase` (ASCII; the embedded paths use
only ASCII data). -/
def strToLower (s : String) : String :=
  String.mk (s.data.map Char.toLower)

/-- Splitting worker: `fuel` bounds the recursion and is initialized to
the character count (every step consumes at least one character when the
separator is non-empty). -/
def splitOnAux (sep : List Char) : Nat → List Char → List (List Char)
  | 0, _ => [[]]
  | _ + 1, [] => [[]]
  | fuel + 1, c :: cs =>
    if sep.isPrefixOf (c :: cs) then
      [] :: splitOnAux sep fuel ((c :: cs).drop sep.length)
    else
      match splitOnAux sep fuel cs with
      | [] => [[c]]
      | p :: ps => (c :: p) :: ps

/-- Model of `String.prototype.split` for a non-empty string separator
(the embedded code never splits on the empty string; it is mapped to the
whole string, as Lean's `String.splitOn` does). -/
def strSplitOn (s sep : String) : List String :=
  if sep = "" then [s]
  else (splitOnAux sep.data s.data.length s.data).map String.mk

/-! ### Shared commerce data types (src/src/types/index.ts) -/

/-- `MoneyAmount`: decimal-string amount plus ISO currency. -/
structure MoneyAmount where
  amount : String
  currency : String
deriving DecidableEq

/-- `CartItem`.  `quantity` is an integer (a JS number on the embedded
paths). -/
structure CartItem where
  productId : String
  name : String
  quantity : Int
  price : MoneyAmount
deriving DecidableEq

/-- `ShippingAddress`. -/
structure ShippingAddress where
  name : String
  line1 : String
  line2 : Option String
  city : String
  state : String
  postalCode : String
  country : String
deriving DecidableEq

/-- `MockOrder.status` values. -/
inductive OrderStatus where
  | pending
  | confirmed
  | shipped
  | delivered
deriving DecidableEq

/-- `MockOrder`.  `createdAt` is a wall-clock string, abstracted.  The
`shippingAddress` field holds the raw shipping-address object the agent
stored (the tool arguments object, cast in TS). -/
structure MockOrder where
  id : String
  status : OrderStatus
  items : List CartItem
  subtotal : MoneyAmount
  total : MoneyAmount
  shippingAddress : Option Json
  createdAt : String
deriving DecidableEq

/-- `CartState`, the result shape of `getCart()`. -/
structure CartState where
  items : List CartItem
  subtotal : MoneyAmount
  itemCount : Int
deriving DecidableEq

/-! ### Decimal-string arithmetic (`calculateSubtotal` helpers)

`calculateSubtotal` uses `parseFloat(item.price.amount)` and
`total.toFixed(2)`.  These are modelled over exact rationals: on the
well-formed decimal literals the program uses, IEEE double arithmetic and
`toFixed(2)` agree with the exact computation. -/

/-- Parse the integer part of a digit list (most significant first). -/
def digitsToNat : List Char → Nat → Nat
  | [], acc => acc
  | c :: cs, acc =>
    if c.isDigit then digitsToNat cs (acc * 10 + (c.toNat - '0'.toNat)) else digitsToNat [] acc

/-- Model of `parseFloat` on non-negative well-formed decimal literals
(optionally with a fractional part).  Inputs that would yield `NaN` in JS
are outside the modelled domain and map to 0. -/
def parseAmount (s : String) : ℚ :=
  match strSplitOn s "." with
  | [w] => (digitsToNat w.data 0 : ℚ)
  | w :: f :: _ =>
    (digitsToNat w.data 0 : ℚ) +
      (digitsToNat f.data 0 : ℚ) / ((10 : ℚ) ^ f.length)
  | [] => 0

/-- Left-pad with `0` to two digits. -/
def pad2 (n : Nat) : String :=
  if n < 10 then "0" ++ toString n else toString n

/-- Model of `Number.prototype.toFixed(2)` for non-negative rationals
(round half up, the behaviour of `toFixed` away from float noise). -/
def toFixed2 (q : ℚ) : String :=
  let n : Int := ⌊q * 100 + 1 / 2⌋
  let cents : Nat := n.toNat
  toString (cents / 100) ++ "." ++ pad2 (cents % 100)

/-! ### Cart operations (ShoppingAgent, shopping-agent.ts)

`toolAddToCart` (lines 1271-1291) mutates `this.cart` in place:
`cart.find(item => item.productId === productId)` locates the first line
with the product id and increments its quantity, otherwise a placeholder
line is pushed.  `addToCartList` is that update as a pure list function. -/

/-- Cart update performed by `ShoppingAgent.toolAddToCart`: increment the
quantity of the first line matching `pid`, or append a placeholder line. -/
def addToCartList (pid : String) (qty : Int) : List CartItem → List CartItem
  | [] => [{ productId := pid, name := pid, quantity := qty,
             price := { amount := "0", currency := "USD" } }]
  | it :: rest =>
    if it.productId = pid then
      { it with quantity := it.quantity + qty } :: rest
    else
      it :: addToCartList pid qty rest

/-- `ShoppingAgent.calculateSubtotal` (lines 1517-1526): sum of
`parseFloat(amount) * quantity` over the cart, rendered with `toFixed(2)`;
the currency is the first line's currency, defaulting to `'USD'`. -/
def calculateSubtotal (cart : List CartItem) : MoneyAmount :=
  { amount := toFixed2 ((cart.map fun it => parseAmount it.price.amount * it.quantity).sum),
    currency := ((cart.head?).map fun it => it.price.currency).getD "USD" }

/-- `ShoppingAgent.getCart` (lines 1001-1007). -/
def getCart (cart : List CartItem) : CartState :=
  { items := cart,
    subtotal := calculateSubtotal cart,
    itemCount := (cart.map fun it => it.quantity).sum }

/-! ### UCP profile types (src/src/types/index.ts, runtime view)

The profile document is what `discover` receives as parsed JSON (TS casts it
with `as UcpProfile`); optional runtime absence is modelled with `Option`
where the code defends against it (`?? 'unknown'`, `?? ''`, `?.`). -/

/-- `RestTransport` / `McpTransport`: schema + endpoint. -/
structure Transport where
  schema : String
  endpoint : String
deriving DecidableEq

/-- One service object (`UcpService`). -/
structure UcpService where
  version : String
  spec : String
  rest : Option Transport
  mcp : Option Transport
  a2a : Option String
deriving DecidableEq

/-- A value of the `services` record: a single service object or an array
(`Record<string, UcpService | UcpService[]>`; `Array.isArray` branches). -/
inductive ServiceEntry where
  | one (s : UcpService)
  | many (ss : List UcpService)
deriving DecidableEq

/-- A flat capability record (`UcpCapability`).  `capExtends` models the
source field `extends` (a Lean keyword).  `version` is `Option` because the
string-entry normalization path copies `profile.ucp.version`, which the code
treats as possibly absent. -/
structure UcpCapability where
  name : String
  version : Option String
  spec : String
  schema : String
  capExtends : Option String
  config : Option Json
deriving DecidableEq

/-- One version entry of the keyed-map capability shape
(`Record<string, Array<{version, spec?, schema?, extends?, config?}>>`). -/
structure VersionEntry where
  version : String
  spec : Option String
  schema : Option String
  capExtends : Option String
  config : Option Json
deriving DecidableEq

/-- One entry of the array capability shape: a bare string or a capability
object (`typeof c === 'string'` branches). -/
inductive CapEntry where
  | strE (s : String)
  | objE (c : UcpCapability)
deriving DecidableEq

/-- The two legal shapes of `profile.ucp.capabilities`
(`UcpCapability[] | Record<string, Array<...>>`; `Array.isArray` branches). -/
inductive CapsShape where
  | arrS (entries : List CapEntry)
  | keyedS (m : List (String × List VersionEntry))
deriving DecidableEq

/-- `PaymentHandler` (the fields the agent reads). -/
structure PaymentHandler where
  id : String
  name : String
  version : String
  spec : String
deriving DecidableEq

/-- The root `ucp` object of a profile. -/
structure UcpRoot where
  version : Option String
  services : List (String × ServiceEntry)
  capabilities : CapsShape
deriving DecidableEq

/-- A fetched profile document.  `ucp = none` models a document without the
root `"ucp"` object. -/
structure UcpProfile where
  ucp : Option UcpRoot
  paymentHandlers : Option (List PaymentHandler)
deriving DecidableEq

/-- `NormalizedService`. -/
structure NormalizedService where
  name : String
  version : String
  spec : String
  rest : Option Transport
  mcp : Option Transport
  a2a : Option String
deriving DecidableEq

/-- `DiscoveryResult`. -/
structure DiscoveryResult where
  profile : UcpProfile
  profileUrl : String
  domain : String
  version : String
  services : List NormalizedService
  capabilities : List UcpCapability
  paymentHandlers : List PaymentHandler
deriving DecidableEq

namespace UcpClient

/-! ### UcpClient (src/unnamed/part_015) -/

/-- The flat record built from one keyed-map version entry in
`normalizeCapabilities` (the push inside the `Object.entries` loop,
part_015 lines 416-427): `spec`/`schema` default to `''`. -/
def capOfEntry (name : String) (e : VersionEntry) : UcpCapability :=
  { name := name,
    version := some e.version,
    spec := e.spec.getD "",
    schema := e.schema.getD "",
    capExtends := e.capExtends,
    config := e.config }

/-- `UcpClient.normalizeCapabilities` (part_015 lines 400-429):
array shape maps entries in place (string entries borrow the profile
version and empty spec/schema); keyed-map shape flattens every version
entry under its key. -/
def normalizeCapabilities (profileVersion : Option String) : CapsShape → List UcpCapability
  | .arrS entries =>
    entries.map fun c =>
      match c with
      | .strE s =>
        { name := s, version := profileVersion, spec := "", schema := "",
          capExtends := none, config := none }
      | .objE c => c
  | .keyedS m =>
    m.flatMap fun p => p.2.map fun e => capOfEntry p.1 e

/-- `UcpClient.normalizeServices` (part_015 lines 434-455): each key maps to
one service object or an array; every object becomes one flat record. -/
def normalizeServices (services : List (String × ServiceEntry)) : List NormalizedService :=
  services.flatMap fun p =>
    let ss := match p.2 with
      | .one s => [s]
      | .many ss => ss
    ss.map fun svc =>
      { name := p.1, version := svc.version, spec := svc.spec,
        rest := svc.rest, mcp := svc.mcp, a2a := svc.a2a }

/-- The two well-known profile paths (`WELL_KNOWN_PATHS`). -/
def wellKnownPaths : List String := ["/.well-known/ucp", "/.well-known/ucp.json"]

/-- Strip trailing `/` characters (`replace(/\/+$/, '')`). -/
def stripTrailingSlashes (s : String) : String :=
  String.mk (s.data.reverse.dropWhile (· = '/')).reverse

/-- Strip a leading `http://` or `https://` (`replace(/^https?:\/\//, '')`). -/
def stripScheme (s : String) : String :=
  if strStartsWith s "https://" then s.drop 8
  else if strStartsWith s "http://" then s.drop 7
  else s

/-- Domain normalization at the top of `discover` (part_015 lines 51-61):
returns `(baseUrl, cleanDomain)`. -/
def normalizeDomain (domain : String) : String × String :=
  if strStartsWith domain "http://" ∨ strStartsWith domain "https://" then
    (stripTrailingSlashes domain, stripTrailingSlashes (stripScheme domain))
  else
    let cleanDomain := stripTrailingSlashes domain
    ("https://" ++ cleanDomain, cleanDomain)

/-- The base URLs probed by `discover` (part_015 lines 67-69): an explicit
`http://` base is probed alone; otherwise (including an explicit `https://`
base) the `https://` base is probed first and then its `http://` variant.
The guard tests `baseUrl.startsWith('http://')`, so an explicitly given
`https://` scheme still receives the `http://` fallback.  In the fallback
`baseUrl.replace('https://', 'http://')` rewrites the (first) scheme
occurrence, i.e. the prefix. -/
def probeBases (baseUrl : String) : List String :=
  if strStartsWith baseUrl "http://" then [baseUrl]
  else [baseUrl, "http://" ++ baseUrl.drop 8]

/-- All probed URLs, in probe order: for each base (outer loop) each
well-known path (inner loop). -/
def probeUrls (baseUrl : String) : List String :=
  (probeBases baseUrl).flatMap fun base => wellKnownPaths.map fun path => base ++ path

/-- Outcome of one discovery probe as the code observes it: `some p` iff the
response was 2xx and its body parsed as JSON (yielding document `p`); any
network error, non-2xx status or JSON parse failure is caught and the loop
moves on. -/
abbrev ProfileFetch := String → Option UcpProfile

/-- First probe that yields a 2xx JSON document, with its URL
(the nested loops with `break` in part_015 lines 71-86). -/
def firstProbe (fetchO : ProfileFetch) : List String → Option (String × UcpProfile)
  | [] => none
  | url :: rest =>
    match fetchO url with
    | some p => some (url, p)
    | none => firstProbe fetchO rest

/-- Message of the `UcpDiscoveryError` thrown when no probe resolves. -/
def discoveryErrMsg (baseUrl : String) : String :=
  "No UCP profile found at " ++ baseUrl ++ ". Tried: " ++
    String.intercalate ", " wellKnownPaths

/-- Message of the `UcpDiscoveryError` thrown when the document has no root
`ucp` object. -/
def invalidProfileMsg : String := "Invalid UCP profile: missing \"ucp\" root object"

/-- `UcpClient.discover` (part_015 lines 50-113).  Errors are the thrown
`UcpDiscoveryError` messages. -/
def discover (fetchO : ProfileFetch) (domain : String) : Except String DiscoveryResult :=
  let (baseUrl, cleanDomain) := normalizeDomain domain
  match firstProbe fetchO (probeUrls baseUrl) with
  | none => .error (discoveryErrMsg baseUrl)
  | some (profileUrl, profile) =>
    match profile.ucp with
    | none => .error invalidProfileMsg
    | some root =>
      .ok { profile := profile,
            profileUrl := profileUrl,
            domain := cleanDomain,
            version := root.version.getD "unknown",
            services := normalizeServices root.services,
            capabilities := normalizeCapabilities root.version root.capabilities,
            paymentHandlers := profile.paymentHandlers.getD [] }

end UcpClient

/-! ### HTTP fetch oracle

Outcome of one `fetch` as the clients observe it: a rejection (network
error / timeout) or an HTTP response whose body either parsed as JSON
(`some j`) or did not (`none`). -/

inductive FetchOutcome where
  | netErr (msg : String)
  | http (status : Nat) (body : Option Json)
deriving DecidableEq

/-- `response.ok`. -/
def isOkStatus (status : Nat) : Bool := 200 ≤ status ∧ status < 300

/-- The network: maps (url, method, body) to the outcome. -/
abbrev FetchOracle := String → String → Option Json → FetchOutcome

/-- `TransportPreference`. -/
inductive TransportPref where
  | auto
  | rest
  | mcp
deriving DecidableEq

/-! ### McpClient (src/unnamed/part_016, second document) -/

/-- Mutable client state of a `UcpClient` instance: the cached discovery,
and the lazily created `McpClient` (its endpoint and its auto-incrementing
request id). -/
structure UcpClientState where
  discovery : Option DiscoveryResult
  mcpEndpointCached : Option String
  mcpRequestId : Nat
deriving DecidableEq

/-- Fresh `UcpClient` state. -/
def UcpClientState.init : UcpClientState :=
  { discovery := none, mcpEndpointCached := none, mcpRequestId := 0 }

namespace McpClient

/-- `McpClient.call` combined with `UcpClient.getOrCreateMcpClient`
(part_015 lines 385-395, part_016 lines 192-223): the client is recreated
(id counter reset) when the endpoint changes; each call sends a JSON-RPC 2.0
envelope with `id = ++requestId` and maps transport errors (non-2xx) and
protocol errors (`error` member in the body) to thrown errors, carrying the
error message. -/
def call (fetchO : FetchOracle) (st : UcpClientState) (endpoint method : String)
    (params : Json) : UcpClientState × Except String Json :=
  let st := if st.mcpEndpointCached = some endpoint then st
    else { st with mcpEndpointCached := some endpoint, mcpRequestId := 0 }
  let id := st.mcpRequestId + 1
  let st := { st with mcpRequestId := id }
  let body := jobj [("jsonrpc", .str "2.0"), ("method", .str method),
                    ("params", params), ("id", .num id)]
  match fetchO endpoint "POST" (some body) with
  | .netErr m => (st, .error m)
  | .http status bodyJson =>
    if isOkStatus status then
      match bodyJson with
      | none => (st, .error "invalid JSON in MCP response")
      | some j =>
        match j.get? "error" with
        | some e =>
          if e.truthy then (st, .error (jstr (e.get? "message")))
          else (st, .ok ((j.get? "result").getD .null))
        | none => (st, .ok ((j.get? "result").getD .null))
    else
      (st, .error ("MCP HTTP error: " ++ toString status))

end McpClient

/-- Insert-or-overwrite of a key in an association list, keeping the
original position on overwrite (JS object key assignment / spread,
`Map.prototype.set`). -/
def upsertKV (ps : List (String × α)) (k : String) (v : α) : List (String × α) :=
  if ps.any fun p => p.1 = k then
    ps.map fun p => if p.1 = k then (k, v) else p
  else ps ++ [(k, v)]

namespace UcpClient

/-- Hexadecimal digit value. -/
def hexVal? (c : Char) : Option Nat :=
  if c.isDigit then some (c.toNat - '0'.toNat)
  else if 'a' ≤ c ∧ c ≤ 'f' then some (c.toNat - 'a'.toNat + 10)
  else if 'A' ≤ c ∧ c ≤ 'F' then some (c.toNat - 'A'.toNat + 10)
  else none

/-- Percent-escape decoding on a character list. -/
def percentDecodeAux : List Char → List Char
  | [] => []
  | '%' :: a :: b :: rest =>
    match hexVal? a, hexVal? b with
    | some ha, some hb => Char.ofNat (16 * ha + hb) :: percentDecodeAux rest
    | _, _ => '%' :: percentDecodeAux (a :: b :: rest)
  | c :: rest => c :: percentDecodeAux rest

/-- Model of `decodeURIComponent` for single-byte percent escapes (the JS
function additionally decodes UTF-8 multi-byte sequences and throws on
malformed input; the embedded paths only produce single-byte escapes). -/
def decodeURIComponent (s : String) : String :=
  String.mk (percentDecodeAux s.data)

/-- Parse a query string into key/value pairs with JS-object overwrite
semantics (the loop in `restPathToMcpCall`, part_015 lines 339-344). -/
def parseQueryParams (queryString : String) : List (String × String) :=
  (strSplitOn queryString "&").foldl
    (fun ps pair =>
      let parts := strSplitOn pair "="
      let key := parts.headD ""
      let value := (parts[1]?).getD ""
      upsertKV ps (decodeURIComponent key) (decodeURIComponent value))
    []

/-- A JSON-RPC method name with parameters, the result of the REST→MCP
translation. -/
structure McpCallSpec where
  method : String
  params : Json
deriving DecidableEq

/-- An object from string-valued query parameters (`{ ...queryParams }`). -/
def objOfParams (ps : List (String × String)) : Json :=
  jobj (ps.map fun p => (p.1, Json.str p.2))

/-- Fields of a JSON object (a non-object spreads no string-keyed fields). -/
def objFields : Json → List (String × Json)
  | .obj fs => fieldsToList fs
  | _ => []
where
  fieldsToList : JsonFields → List (String × Json)
    | .nil => []
    | .cons k v tl => (k, v) :: fieldsToList tl

/-- Spread-merge `{ ...(body ?? {}), ...queryParams }`. -/
def mergeBodyParams (body : Option Json) (ps : List (String × String)) : Json :=
  .obj (jfields (ps.foldl (fun fs p => upsertKV fs p.1 (Json.str p.2))
    (objFields (body.getD (jobj [])))))

/-- `UcpClient.restPathToMcpCall` (part_015 lines 330-383): the fixed
path-pattern rules mapping a REST-style path + method + body to a JSON-RPC
method name + params.  The final fallback uses the clean path itself as the
method name (the source's `replace(/\//g, '/')` is an identity). -/
def restPathToMcpCall (path httpMethod : String) (body : Option Json) : McpCallSpec :=
  let parts := strSplitOn path "?"
  let pathPart := parts.headD ""
  let queryString := parts[1]?
  let cleanPath := if strStartsWith pathPart "/" then pathPart.drop 1 else pathPart
  let queryParams := match queryString with
    | some qs => if qs = "" then [] else parseQueryParams qs
    | none => []
  if cleanPath = "products/search" then
    { method := "products/search", params := objOfParams queryParams }
  else if strStartsWith cleanPath "products/" ∧ 9 < cleanPath.length ∧ httpMethod = "GET" then
    { method := "products/get", params := jobj [("id", .str (cleanPath.drop 9))] }
  else if cleanPath = "products" ∧ httpMethod = "GET" then
    { method := "products/list", params := objOfParams queryParams }
  else if cleanPath = "checkout/complete" ∧ httpMethod = "POST" then
    { method := "checkout/complete", params := body.getD (jobj []) }
  else if cleanPath = "checkout" ∧ httpMethod = "POST" then
    { method := "checkout/create", params := body.getD (jobj []) }
  else if strStartsWith cleanPath "orders/" ∧ 7 < cleanPath.length ∧ httpMethod = "GET" then
    { method := "orders/get", params := jobj [("id", .str (cleanPath.drop 7))] }
  else
    { method := cleanPath, params := mergeBodyParams body queryParams }

/-- Service selection shared by the endpoint getters: by name if given,
otherwise the first service. -/
def findService (services : List NormalizedService) : Option String → Option NormalizedService
  | some n => services.find? fun s => s.name = n
  | none => services.head?

/-- `UcpClient.getRestEndpoint` applied to a discovery result
(`service?.transports.rest?.endpoint`). -/
def getRestEndpoint? (d : DiscoveryResult) (serviceName : Option String) : Option String :=
  (findService d.services serviceName).bind fun s => s.rest.map fun t => t.endpoint

/-- `UcpClient.getMcpEndpoint` applied to a discovery result. -/
def getMcpEndpoint? (d : DiscoveryResult) (serviceName : Option String) : Option String :=
  (findService d.services serviceName).bind fun s => s.mcp.map fun t => t.endpoint

/-- JS truthiness of the endpoint getters' results (`if (mcpEndpoint)` and
`if (!endpoint)` treat an empty string like an absent endpoint). -/
def endpointTruthy : Option String → Bool
  | some s => s ≠ ""
  | none => false

/-- Options bag of `callApi`. -/
structure CallOpts where
  method : Option String := none
  body : Option Json := none
  serviceName : Option String := none
  transport : Option TransportPref := none

/-- Trace entry (instrumentation, not part of the source state): one
transport attempt actually made by `callApi`. -/
inductive Attempt where
  | mcpA (method : String) (params : Json)
  | restA (path httpMethod : String)
deriving DecidableEq

/-- Message of the error thrown when `getDiscovery()` is called before
`discover()`. -/
def noDiscoveryMsg : String := "No discovery result. Call discover() first."

/-- Message of the error thrown when MCP transport is forced without an
MCP endpoint. -/
def noMcpMsg : String := "No MCP endpoint available. Discover the merchant first."

/-- Message of the error thrown when the REST leg finds no REST endpoint. -/
def noRestMsg : String := "No REST endpoint available. Discover the merchant first."

/-- Message of the `UcpApiError` thrown for a non-2xx REST response. -/
def apiErrMsg (httpMethod path : String) (status : Nat) : String :=
  "API call failed: " ++ httpMethod ++ " " ++ path ++ " → " ++ toString status

/-- The REST leg of `callApi` (part_015 lines 222-252): resolve the REST
endpoint (throwing if absent or empty), perform the HTTP call, map a
non-2xx response to a `UcpApiError` and return the JSON body (a non-JSON
2xx body is returned as text, abstracted here as `""`).  `acc` carries the
attempts already made. -/
def restLeg (fetchO : FetchOracle) (st : UcpClientState) (d : DiscoveryResult)
    (path httpMethod : String) (opts : CallOpts) (acc : List Attempt) :
    UcpClientState × Except String Json × List Attempt :=
  match getRestEndpoint? d opts.serviceName with
  | some ep =>
    if ep = "" then (st, .error noRestMsg, acc)
    else
      let acc := acc ++ [Attempt.restA path httpMethod]
      match fetchO (ep ++ path) httpMethod opts.body with
      | .netErr m => (st, .error m, acc)
      | .http status bodyJson =>
        if isOkStatus status then
          (st, .ok (bodyJson.getD (.str "")), acc)
        else
          (st, .error (apiErrMsg httpMethod path status), acc)
  | none => (st, .error noRestMsg, acc)

/-- `UcpClient.callApi` (part_015 lines 190-252), instrumented with the
list of transport attempts made.  Transport selection: `auto` tries MCP if
an MCP endpoint is known and falls back to REST on any MCP failure iff a
REST endpoint is also known; `mcp` forces MCP and throws without a REST
fallback; `rest` only performs the REST leg.  The endpoint getters go
through `getDiscovery()`, which throws when nothing was discovered. -/
def callApi (fetchO : FetchOracle) (st : UcpClientState) (preferred : TransportPref)
    (path : String) (opts : CallOpts) :
    UcpClientState × Except String Json × List Attempt :=
  let transport := opts.transport.getD preferred
  let httpMethod := opts.method.getD (if opts.body.isSome then "POST" else "GET")
  match st.discovery with
  | none => (st, .error noDiscoveryMsg, [])
  | some d =>
    if transport = .mcp ∨ transport = .auto then
      match getMcpEndpoint? d opts.serviceName with
      | some mcpEp =>
        if mcpEp = "" then
          if transport = .mcp then (st, .error noMcpMsg, [])
          else restLeg fetchO st d path httpMethod opts []
        else
          let spec := restPathToMcpCall path httpMethod opts.body
          let (st, r) := McpClient.call fetchO st mcpEp spec.method spec.params
          match r with
          | .ok v => (st, .ok v, [Attempt.mcpA spec.method spec.params])
          | .error e =>
            if transport = .auto ∧ endpointTruthy (getRestEndpoint? d opts.serviceName) then
              restLeg fetchO st d path httpMethod opts [Attempt.mcpA spec.method spec.params]
            else
              (st, .error e, [Attempt.mcpA spec.method spec.params])
      | none =>
        if transport = .mcp then (st, .error noMcpMsg, [])
        else restLeg fetchO st d path httpMethod opts []
    else restLeg fetchO st d path httpMethod opts []

/-- The transport `callApi` resolves (`options.transport ?? preferred`). -/
def effTransport (preferred : TransportPref) (opts : CallOpts) : TransportPref :=
  opts.transport.getD preferred

/-- The HTTP method `callApi` resolves
(`options.method ?? (options.body ? 'POST' : 'GET')`). -/
def effMethod (opts : CallOpts) : String :=
  opts.method.getD (if opts.body.isSome then "POST" else "GET")

/-- The JSON-RPC call `callApi` would derive for a path and options. -/
def effSpec (path : String) (opts : CallOpts) : McpCallSpec :=
  restPathToMcpCall path (effMethod opts) opts.body

end UcpClient

/-! ### JS string helpers used by the agent -/

/-- Template-literal / `as string` conversion of a runtime value (array and
object conversions do not occur on the embedded paths). -/
def jsToStr : Json → String
  | .str s => s
  | .num n => toString n
  | .bool b => if b then "true" else "false"
  | .null => "null"
  | _ => ""

/-- JS truthiness of an optional runtime value (`undefined` is falsy). -/
def optTruthy : Option Json → Bool
  | some j => j.truthy
  | none => false

/-- Characters `encodeURIComponent` leaves unescaped. -/
def isUnreservedURI (c : Char) : Bool :=
  c.isAlphanum ∨ c ∈ ['-', '_', '.', '!', '~', '*', '\'', '(', ')']

/-- Hex digit character (upper case). -/
def hexDigit (n : Nat) : Char :=
  if n < 10 then Char.ofNat ('0'.toNat + n) else Char.ofNat ('A'.toNat + n - 10)

/-- Model of `encodeURIComponent` for single-byte code points (multi-byte
UTF-8 escaping does not occur on the embedded paths). -/
def encodeURIComponent (s : String) : String :=
  String.mk (s.data.flatMap fun c =>
    if isUnreservedURI c then [c]
    else ['%', hexDigit (c.toNat / 16 % 16), hexDigit (c.toNat % 16)])

/-- Substring containment (`String.prototype.includes`). -/
def strContains (hay needle : String) : Bool :=
  if needle = "" then true else 2 ≤ (strSplitOn hay needle).length

/-- Elements of a JSON array as a Lean list (a non-array has none; array
methods on a non-array would throw in JS and do not occur on the embedded
paths). -/
def jsonElems : Json → List Json
  | .arr xs => toL xs
  | _ => []
where
  toL : JsonList → List Json
    | .nil => []
    | .cons x tl => x :: toL tl

/-- An optional object field: present iff the value is given (models that
`JSON.stringify` omits properties whose value is `undefined`). -/
def optField (key : String) : Option Json → List (String × Json)
  | some v => [(key, v)]
  | none => []

namespace AcpClient

/-! ### AcpClient (src/unnamed/part_016, first document) -/

/-- Runtime view of a checkout-session document returned by the ACP
merchant (the TS `as AcpCheckoutSession` cast): the fields the agent
reads. -/
structure AcpSession where
  id : String
  status : String
  lineItems : Json
  totals : Json
  paymentHandlers : Json
deriving DecidableEq

/-- Read the agent-visible fields out of a session document. -/
def decodeSession (j : Json) : AcpSession :=
  { id := jstr (j.getNN "id"),
    status := jstr (j.getNN "status"),
    lineItems := (j.get? "line_items").getD .null,
    totals := (j.get? "totals").getD .null,
    paymentHandlers := (j.get? "payment_handlers").getD .null }

/-- `AcpClient.request` (part_016 lines 107-142): bearer-authenticated
REST call; a non-2xx response throws an `AcpApiError`, a 2xx response is
parsed as JSON. -/
def request (fetchO : FetchOracle) (endpoint method path : String)
    (body : Option Json) : Except String Json :=
  match fetchO (endpoint ++ path) method body with
  | .netErr m => .error m
  | .http status bodyJson =>
    if isOkStatus status then
      match bodyJson with
      | some j => .ok j
      | none => .error "invalid JSON in ACP response"
    else
      .error ("ACP API call failed: " ++ method ++ " " ++ path ++ " → " ++ toString status)

/-- `AcpClient.createCheckout`: POST /checkout_sessions. -/
def createCheckout (fetchO : FetchOracle) (endpoint : String) (params : Json) :
    Except String AcpSession :=
  (request fetchO endpoint "POST" "/checkout_sessions" (some params)).map decodeSession

/-- `AcpClient.updateCheckout`: POST /checkout_sessions/:id. -/
def updateCheckout (fetchO : FetchOracle) (endpoint sessionId : String) (params : Json) :
    Except String AcpSession :=
  (request fetchO endpoint "POST" ("/checkout_sessions/" ++ sessionId) (some params)).map
    decodeSession

/-- `AcpClient.completeCheckout`: POST /checkout_sessions/:id/complete. -/
def completeCheckout (fetchO : FetchOracle) (endpoint sessionId : String) (params : Json) :
    Except String AcpSession :=
  (request fetchO endpoint "POST" ("/checkout_sessions/" ++ sessionId ++ "/complete")
    (some params)).map decodeSession

/-- `AcpClient.cancelCheckout`: POST /checkout_sessions/:id/cancel. -/
def cancelCheckout (fetchO : FetchOracle) (endpoint sessionId : String) :
    Except String AcpSession :=
  (request fetchO endpoint "POST" ("/checkout_sessions/" ++ sessionId ++ "/cancel")
    none).map decodeSession

end AcpClient

namespace AcpServer

/-! ### Mock ACP merchant: the server-side checkout-session state machine

Embedded from the mock merchant implementation `mock-acp-merchant.ts`
(the `/checkout_sessions` route handlers).  The bearer-auth middleware,
the product-browsing endpoints and the line-item pricing, totals and
payment-handler advertisement carried in the session body do not
influence the session-status transitions and are left out of the
embedding; the four handlers below translate the route bodies field by
field on the status-relevant state. -/

/-- The checkout-session statuses (`AcpCheckoutStatus`). -/
inductive Status where
  | not_ready_for_payment
  | ready_for_payment
  | completed
  | canceled
deriving DecidableEq

/-- The status strings, as the server interpolates them into error
messages (template `${state.session.status}`). -/
def Status.str : Status → String
  | .not_ready_for_payment => "not_ready_for_payment"
  | .ready_for_payment => "ready_for_payment"
  | .completed => "completed"
  | .canceled => "canceled"

/-- The status-relevant fields of a stored session: id, status and the
optional shipping address. -/
structure Session where
  id : String
  status : Status
  shippingAddress : Option ShippingAddress
deriving DecidableEq

/-- `POST /checkout_sessions` (create): 400 if `line_items` is missing or
empty; 400 naming the first line item whose product is not in the
catalog; otherwise the new session is stored and echoed (201), with
status `ready_for_payment` iff a `shipping_address` was supplied.
Replies are `.error (httpStatus, message)` or `.ok session`. -/
def create (products : List String) (id : String) (lineItems : List String)
    (addr : Option ShippingAddress) : Except (Nat × String) Session :=
  if lineItems.isEmpty then
    .error (400, "line_items is required and must not be empty")
  else
    match lineItems.find? (fun pid => !products.contains pid) with
    | some pid => .error (400, "Product not found: " ++ pid)
    | none =>
      .ok { id := id,
            status := if addr.isSome then .ready_for_payment
                      else .not_ready_for_payment,
            shippingAddress := addr }

/-- `POST /checkout_sessions/:id` (update): 400 in `completed` or
`canceled`; a supplied shipping address is stored and the status becomes
`ready_for_payment`; without one the session is echoed unchanged. -/
def update (s : Session) (addr : Option ShippingAddress) :
    Except (Nat × String) Session :=
  if s.status = .completed ∨ s.status = .canceled then
    .error (400, "Cannot update session in " ++ s.status.str ++ " state")
  else
    match addr with
    | some a => .ok { s with shippingAddress := some a, status := .ready_for_payment }
    | none => .ok s

/-- Truthiness of an optional request-body string (`!payment_token`):
absent or empty is falsy. -/
def present : Option String → Bool
  | none => false
  | some t => t != ""

/-- `POST /checkout_sessions/:id/complete`: 400 unless
`ready_for_payment`; then 400 if `payment_token` or `payment_handler` is
missing; the token `tok_mock_failure` simulates a decline — the stored
session returns to `not_ready_for_payment` and the reply is a 402
`Payment declined`; any other token completes the session.  The first
component is the session as the server stores it afterwards. -/
def complete (s : Session) (token handler : Option String) :
    Session × Except (Nat × String) Session :=
  if s.status ≠ .ready_for_payment then
    (s, .error (400, "Cannot complete session in " ++ s.status.str ++
      " state. Must be ready_for_payment."))
  else if present token = false ∨ present handler = false then
    (s, .error (400, "payment_token and payment_handler are required"))
  else if token = some "tok_mock_failure" then
    ({ s with status := .not_ready_for_payment }, .error (402, "Payment declined"))
  else
    ({ s with status := .completed }, .ok { s with status := .completed })

/-- `POST /checkout_sessions/:id/cancel`: 400 only in `completed`; from
every other status — including `canceled` itself — the stored status
becomes `canceled` and the session is echoed with a 200. -/
def cancel (s : Session) : Session × Except (Nat × String) Session :=
  if s.status = .completed then
    (s, .error (400, "Cannot cancel a completed session"))
  else
    ({ s with status := .canceled }, .ok { s with status := .canceled })

end AcpServer

/-! ### LLM adapter types (src/src/types/index.ts) -/

/-- Message roles. -/
inductive Role where
  | user
  | assistant
  | system
  | tool
deriving DecidableEq

/-- `ToolCall`. -/
structure ToolCall where
  id : String
  name : String
  arguments : Json
deriving DecidableEq

/-- `ChatMessage`. -/
structure ChatMessage where
  role : Role
  content : String
  toolCallId : Option String := none
  toolCalls : List ToolCall := []
deriving DecidableEq

/-- `LlmResponse.finishReason`. -/
inductive FinishReason where
  | stop
  | tool_calls
  | length
  | error
deriving DecidableEq

/-- `LlmResponse` (the `usage` member is not read by the orchestrator loop
and is omitted). -/
structure LlmResponse where
  content : String
  toolCalls : List ToolCall
  finishReason : FinishReason
deriving DecidableEq

/-- `AgentStep.type`. -/
inductive StepType where
  | thinking
  | tool_call
  | tool_result
  | final_answer
deriving DecidableEq

/-- `AgentStep`; `timestamp` (`Date.now()`) is abstracted to 0. -/
structure AgentStep where
  iteration : Nat
  type : StepType
  toolName : Option String := none
  toolInput : Option Json := none
  toolOutput : Option Json := none
  content : Option String := none
  timestamp : Nat := 0
deriving DecidableEq

/-- The protocol bound by `discover_merchant`. -/
inductive Protocol where
  | ucp
  | acp
deriving DecidableEq

/-- `CheckoutResult.status` values used by `buildResult`. -/
inductive CheckoutResultStatus where
  | completed
  | pending
deriving DecidableEq

/-- `CheckoutResult` (`fulfillment.estimatedDelivery` is wall-clock
derived and abstracted to `""`). -/
structure CheckoutResult where
  orderId : String
  status : CheckoutResultStatus
  items : List CartItem
  total : MoneyAmount
  paymentMethod : String
  fulfillmentMethod : String
  estimatedDelivery : String
deriving DecidableEq

/-- The `merchant` member of `AgentResult`. -/
structure MerchantInfo where
  domain : String
  profile : UcpProfile
deriving DecidableEq

/-- `AgentResult` (the optional `usage`/`error` members are not produced
by `buildResult` and are omitted). -/
structure AgentResult where
  success : Bool
  answer : String
  steps : List AgentStep
  iterations : Nat
  merchant : Option MerchantInfo
  checkout : Option CheckoutResult
deriving DecidableEq

namespace ShoppingAgent

/-! ### ShoppingAgent (src/src/agent/shopping-agent.ts, lines 673-1592)

The mutable per-run instance state and the external world (LLM adapter,
network, plugin handlers) of one `ShoppingAgent`. -/

/-- Mutable instance state of a `ShoppingAgent`.  `llmCalls` and
`toolExecs` are instrumentation fields recording the sequence of adapter
calls and executed tools; no behaviour depends on them. -/
structure AgentSt where
  iteration : Nat
  steps : List AgentStep
  protocol : Option Protocol
  acpBaseUrl : Option String
  cart : List CartItem
  checkoutSessionId : Option Json
  shippingAddress : Option Json
  orders : List (String × MockOrder)
  client : UcpClientState
  llmCalls : Nat
  toolExecs : List (String × Json)

/-- Fresh agent state (constructor state with instrumentation zeroed). -/
def AgentSt.init : AgentSt :=
  { iteration := 0, steps := [], protocol := none, acpBaseUrl := none,
    cart := [], checkoutSessionId := none, shippingAddress := none,
    orders := [], client := UcpClientState.init, llmCalls := 0, toolExecs := [] }

/-- The external world of one agent run: the injected LLM adapter (a
buffered adapter: a function from the message history to the response),
the network oracles, the configured ACP endpoint (`none` when no
`acpOptions` were given, i.e. `this.acpClient === null`), the UCP client's
transport preference, and the registered plugin handlers (a handler either
returns a value or throws). -/
structure AgentEnv where
  chat : List ChatMessage → LlmResponse
  fetchO : FetchOracle
  profileFetchO : UcpClient.ProfileFetch
  acpEndpoint : Option String
  preferredTransport : TransportPref := .auto
  plugins : List (String × (Json → Except String Json)) := []

/-- Append a step with the current iteration number
(`ShoppingAgent.recordStep`). -/
def recordStep (st : AgentSt) (type : StepType) (toolName : Option String)
    (toolInput toolOutput : Option Json) (content : Option String) : AgentSt :=
  { st with steps := st.steps ++
      [{ iteration := st.iteration, type := type, toolName := toolName,
         toolInput := toolInput, toolOutput := toolOutput, content := content }] }

/-! #### JSON encodings of the object literals the tools return -/

/-- `MoneyAmount` as a JSON object. -/
def moneyJson (m : MoneyAmount) : Json :=
  jobj [("amount", .str m.amount), ("currency", .str m.currency)]

/-- `CartItem` as a JSON object. -/
def cartItemJson (it : CartItem) : Json :=
  jobj [("productId", .str it.productId), ("name", .str it.name),
        ("quantity", .num it.quantity), ("price", moneyJson it.price)]

/-- `CartState` as a JSON object. -/
def cartStateJson (cs : CartState) : Json :=
  jobj [("items", jarrMap cartItemJson cs.items),
        ("subtotal", moneyJson cs.subtotal),
        ("itemCount", .num cs.itemCount)]

/-- `MockOrder.status` as its wire string. -/
def orderStatusStr : OrderStatus → String
  | .pending => "pending"
  | .confirmed => "confirmed"
  | .shipped => "shipped"
  | .delivered => "delivered"

/-- `MockOrder` as a JSON object. -/
def orderJson (o : MockOrder) : Json :=
  .obj (jfields ([("id", .str o.id), ("status", .str (orderStatusStr o.status)),
        ("items", jarrMap cartItemJson o.items),
        ("subtotal", moneyJson o.subtotal), ("total", moneyJson o.total)] ++
        optField "shippingAddress" o.shippingAddress ++
        [("createdAt", .str o.createdAt)]))

/-- The transport names listed for a service by `toolDiscoverMerchant`
(`Object.keys(s.transports).filter(t => s.transports[t])`). -/
def transportKeys (s : NormalizedService) : List String :=
  (if s.rest.isSome then ["rest"] else []) ++
  (if s.mcp.isSome then ["mcp"] else []) ++
  (if s.a2a.isSome then ["a2a"] else [])

/-! #### Tool handlers -/

/-- Error payload text of a failed `discover_merchant`. -/
def noMerchantMsg (domain : String) : String :=
  "Could not discover merchant at " ++ domain ++
    ". No UCP profile found and ACP is not configured."

/-- The `/products` reachability fallback inside `toolDiscoverMerchant`
(lines 1113-1131): only `res.ok` is inspected. -/
def productsProbe (env : AgentEnv) (st : AgentSt) (acpEp domain : String) :
    AgentSt × Except String Json :=
  match env.fetchO (acpEp ++ "/products") "GET" none with
  | .http status _ =>
    if isOkStatus status then
      ({ st with protocol := some .acp },
       .ok (jobj [("domain", .str domain), ("protocol", .str "acp"),
                  ("version", .str "2026-01-30"),
                  ("capabilities", jarr [.str "checkout"]),
                  ("paymentHandlers",
                   jarr [jobj [("type", .str "stripe_shared_payment_token")]])]))
    else (st, .ok (errObj (noMerchantMsg domain)))
  | .netErr _ => (st, .ok (errObj (noMerchantMsg domain)))

/-- `ShoppingAgent.toolDiscoverMerchant` (lines 1061-1134): try UCP
discovery; on failure, if an ACP client is configured, probe `/health`
then `/products` of the ACP endpoint.  In the `/health` probe the
`protocol` field is assigned before `res.json()` is awaited, so a 2xx
response with a non-JSON body leaves `protocol = 'acp'` set while the
handler falls through to the `/products` probe. -/
def toolDiscoverMerchant (env : AgentEnv) (st : AgentSt) (domain : String) :
    AgentSt × Except String Json :=
  match UcpClient.discover env.profileFetchO domain with
  | .ok d =>
    ({ st with protocol := some .ucp, client := { st.client with discovery := some d } },
     .ok (jobj [("domain", .str d.domain), ("protocol", .str "ucp"),
                ("version", .str d.version),
                ("capabilities", jarrMap (fun c => .str c.name) d.capabilities),
                ("services", jarrMap (fun s =>
                   jobj [("name", .str s.name),
                         ("transports", jarrMap Json.str (transportKeys s))]) d.services),
                ("paymentHandlers", jarrMap (fun h =>
                   jobj [("id", .str h.id), ("name", .str h.name)]) d.paymentHandlers)]))
  | .error _ =>
    match env.acpEndpoint with
    | some acpEp =>
      let st := { st with acpBaseUrl := some acpEp }
      match env.fetchO (acpEp ++ "/health") "GET" none with
      | .http status (some info) =>
        if isOkStatus status then
          ({ st with protocol := some .acp },
           .ok (jobj [("domain", .str domain), ("protocol", .str "acp"),
                      ("version", .str "2026-01-30"),
                      ("capabilities", jarr [.str "checkout"]),
                      ("merchant", (info.getNN "merchant").getD (.str domain)),
                      ("paymentHandlers",
                       jarr [jobj [("type", .str "stripe_shared_payment_token")]])]))
        else productsProbe env st acpEp domain
      | .http status none =>
        if isOkStatus status then
          productsProbe env { st with protocol := some .acp } acpEp domain
        else productsProbe env st acpEp domain
      | .netErr _ => productsProbe env st acpEp domain
    | none => (st, .ok (errObj (noMerchantMsg domain)))

/-- One capability summary of `toolListCapabilities` (optional fields are
omitted from the object when absent, as `JSON.stringify` would). -/
def capSummaryJson (c : UcpCapability) : Json :=
  .obj (jfields ([("name", .str c.name)] ++
    optField "version" (c.version.map .str) ++
    optField "extends" (c.capExtends.map .str)))

/-- `ShoppingAgent.toolListCapabilities` (lines 1136-1152).  The UCP branch
goes through `getCapabilities()`, which throws when nothing was
discovered. -/
def toolListCapabilities (st : AgentSt) : AgentSt × Except String Json :=
  if st.protocol = some .acp then
    (st, .ok (jobj [("capabilities",
      jarr [jobj [("name", .str "acp.checkout"), ("version", .str "2026-01-30")]])]))
  else
    match st.client.discovery with
    | none => (st, .error UcpClient.noDiscoveryMsg)
    | some d => (st, .ok (jobj [("capabilities", jarrMap capSummaryJson d.capabilities)]))

/-- `ShoppingAgent.fetchMerchantApi` (lines 1158-1181): direct fetch
against the ACP base URL when the ACP protocol is bound, otherwise
`UcpClient.callApi`.  Returns the updated UCP client state alongside the
outcome. -/
def fetchMerchantApi (env : AgentEnv) (st : AgentSt) (path : String)
    (method? : Option String) (body : Option Json) :
    UcpClientState × Except String Json :=
  if st.protocol = some .acp ∧ st.acpBaseUrl.isSome then
    let base := st.acpBaseUrl.getD ""
    let method := method?.getD (if body.isSome then "POST" else "GET")
    match env.fetchO (base ++ path) method body with
    | .netErr m => (st.client, .error m)
    | .http status bodyJson =>
      if isOkStatus status then
        match bodyJson with
        | some j => (st.client, .ok j)
        | none => (st.client, .error "invalid JSON in response")
      else
        (st.client, .error ("ACP API: " ++ method ++ " " ++ path ++ " → " ++
          toString status ++ ": "))
  else
    let (cst, r, _) := UcpClient.callApi env.fetchO st.client env.preferredTransport path
      { method := method?, body := body }
    (cst, r)

/-- Integer read of a tool argument with a default
(`(args.x as number) ?? d`); non-numeric present values are outside the
modelled domain. -/
def argNum (args : Json) (key : String) (d : Int) : Int :=
  match args.getNN key with
  | some (.num n) => n
  | some _ => d
  | none => d

/-- The product summary `toolBrowseProducts` returns per product. -/
def browseItemJson (p : Json) : Json :=
  .obj (jfields (optField "id" (p.get? "id") ++ optField "name" (p.get? "name") ++
    optField "price" (p.get? "price") ++ optField "category" (p.get? "category") ++
    [("inStock", (p.getNN "inStock").getD (.bool true))]))

/-- `ShoppingAgent.toolBrowseProducts` (lines 1183-1218): list products,
filter by category, paginate; any thrown error yields an empty page. -/
def toolBrowseProducts (env : AgentEnv) (st : AgentSt) (args : Json) :
    AgentSt × Except String Json :=
  let page := argNum args "page" 1
  let limit := min (argNum args "limit" 10) 50
  let category : Option String := match args.getNN "category" with
    | some (.str s) => some s
    | _ => none
  let (cst, r) := fetchMerchantApi env st "/products" (some "GET") none
  let st := { st with client := cst }
  match r with
  | .ok result =>
    let products := jsonElems ((result.getNN "products").getD result)
    let products := match category with
      | some cat => products.filter fun (p : Json) =>
          match p.getNN "category" with
          | some (.str s) => strToLower s = strToLower cat
          | _ => false
      | none => products
    let start := (page - 1) * limit
    let paged := (products.drop start.toNat).take limit.toNat
    (st, .ok (jobj [("products", jarrMap browseItemJson paged),
                    ("total", .num products.length),
                    ("page", .num page), ("limit", .num limit)]))
  | .error _ =>
    (st, .ok (jobj [("products", jarr []), ("total", .num 0),
                    ("page", .num page), ("limit", .num limit)]))

/-- The product summary `toolSearchProducts` returns per product. -/
def searchItemJson (p : Json) : Json :=
  .obj (jfields (optField "id" (p.get? "id") ++ optField "name" (p.get? "name") ++
    optField "price" (p.get? "price") ++ optField "description" (p.get? "description") ++
    [("inStock", (p.getNN "inStock").getD (.bool true))]))

/-- `ShoppingAgent.toolSearchProducts` (lines 1220-1264): search endpoint,
falling back to a client-side filter over `/products`, falling back to an
empty result.  A missing or non-string `query` argument makes
`.toLowerCase()` throw, which propagates to the loop. -/
def toolSearchProducts (env : AgentEnv) (st : AgentSt) (args : Json) :
    AgentSt × Except String Json :=
  match args.getNN "query" with
  | some (.str rawQuery) =>
    let query := strToLower rawQuery
    let limit := min (argNum args "limit" 10) 50
    let (cst, r) := fetchMerchantApi env st
      ("/products/search?q=" ++ encodeURIComponent query) none none
    let st := { st with client := cst }
    match r with
    | .ok result =>
      let products := jsonElems ((result.getNN "products").getD result)
      (st, .ok (jobj [("products", jarrMap searchItemJson (products.take limit.toNat)),
                      ("total", .num products.length),
                      ("query", .str rawQuery)]))
    | .error _ =>
      let (cst, r) := fetchMerchantApi env st "/products" none none
      let st := { st with client := cst }
      match r with
      | .ok result =>
        let all := jsonElems ((result.getNN "products").getD result)
        let filtered := all.filter fun (p : Json) =>
          strContains (strToLower (jstr (p.getNN "name"))) query ||
          (match p.getNN "description" with
           | some (.str d) => strContains (strToLower d) query
           | _ => false)
        (st, .ok (jobj [("products", jarrMap searchItemJson (filtered.take limit.toNat)),
                        ("total", .num filtered.length),
                        ("query", .str rawQuery)]))
      | .error _ =>
        (st, .ok (jobj [("products", jarr []), ("total", .num 0),
                        ("query", .str rawQuery)]))
  | _ => (st, .error "TypeError: cannot read toLowerCase of the query argument")

/-- `ShoppingAgent.toolGetProduct` (lines 1266-1269): errors propagate to
the loop. -/
def toolGetProduct (env : AgentEnv) (st : AgentSt) (productId : String) :
    AgentSt × Except String Json :=
  let (cst, r) := fetchMerchantApi env st ("/products/" ++ productId) none none
  ({ st with client := cst }, r)

/-- `ShoppingAgent.toolAddToCart` (lines 1271-1291). -/
def toolAddToCart (st : AgentSt) (args : Json) : AgentSt × Except String Json :=
  let productId := jstr (args.getNN "productId")
  let quantity := argNum args "quantity" 1
  let st := { st with cart := addToCartList productId quantity st.cart }
  (st, .ok (jobj [("success", .bool true), ("cart", cartStateJson (getCart st.cart))]))

/-- `ShoppingAgent.toolViewCart` (lines 1293-1295). -/
def toolViewCart (st : AgentSt) : AgentSt × Except String Json :=
  (st, .ok (cartStateJson (getCart st.cart)))

/-- Remove the first cart line with the given product id
(`findIndex` + `splice(idx, 1)`). -/
def removeFirst (pid : String) : List CartItem → List CartItem
  | [] => []
  | it :: rest => if it.productId = pid then rest else it :: removeFirst pid rest

/-- `ShoppingAgent.toolRemoveFromCart` (lines 1297-1304). -/
def toolRemoveFromCart (st : AgentSt) (productId : String) :
    AgentSt × Except String Json :=
  if st.cart.any fun it => it.productId = productId then
    let st := { st with cart := removeFirst productId st.cart }
    (st, .ok (jobj [("success", .bool true), ("cart", cartStateJson (getCart st.cart))]))
  else
    (st, .ok (jobj [("success", .bool false), ("error", .str "Item not found in cart")]))

/-! #### Checkout tool handlers -/

/-- `this.client.hasCapability(name)` as the agent calls it: throws when
nothing was discovered (part_015 lines 135-137 via `getDiscovery`). -/
def hasCapabilityE (st : AgentSt) (name : String) : Except String Bool :=
  match st.client.discovery with
  | none => .error UcpClient.noDiscoveryMsg
  | some d => .ok (d.capabilities.any fun c => c.name = name)

/-- The ACP create-checkout body built from the cart (lines 1314-1319). -/
def acpCreateBody (cart : List CartItem) : Json :=
  jobj [("line_items", jarrMap (fun it =>
    jobj [("product_id", .str it.productId), ("quantity", .num it.quantity)]) cart)]

/-- `ShoppingAgent.toolInitiateCheckout` (lines 1306-1366): empty-cart
guard first; then the ACP flow when that protocol is bound and a client is
configured; otherwise the UCP flow guarded by the checkout capability. -/
def toolInitiateCheckout (env : AgentEnv) (st : AgentSt) :
    AgentSt × Except String Json :=
  if st.cart = [] then
    (st, .ok (errObj "Cart is empty. Add items before checking out."))
  else if st.protocol = some .acp ∧ env.acpEndpoint.isSome then
    match AcpClient.createCheckout env.fetchO (env.acpEndpoint.getD "")
        (acpCreateBody st.cart) with
    | .ok session =>
      let st := { st with checkoutSessionId := some (.str session.id) }
      (st, .ok (jobj [("protocol", .str "acp"), ("sessionId", .str session.id),
                      ("status", .str session.status),
                      ("lineItems", session.lineItems),
                      ("totals", session.totals),
                      ("paymentHandlers", session.paymentHandlers),
                      ("requiredSteps",
                       if session.status = "not_ready_for_payment" then
                         jarr [.str "shipping", .str "payment"]
                       else jarr [.str "payment"])]))
    | .error e => (st, .ok (errObj ("ACP checkout failed: " ++ e)))
  else
    match hasCapabilityE st "dev.ucp.shopping.checkout" with
    | .error e => (st, .error e)
    | .ok false => (st, .ok (errObj "Merchant does not support checkout capability."))
    | .ok true =>
      let (cst, r, _) := UcpClient.callApi env.fetchO st.client env.preferredTransport
        "/checkout"
        { method := some "POST", body := some (jobj [("items", jarrMap cartItemJson st.cart)]) }
      let st := { st with client := cst }
      match r with
      | .ok data =>
        let sid := match data.getNN "sessionId" with
          | some v => some v
          | none => data.getNN "id"
        let st := { st with checkoutSessionId := sid }
        (st, .ok (.obj (jfields ([("protocol", .str "ucp")] ++
            optField "sessionId" sid ++
            [("items", jarrMap cartItemJson st.cart),
             ("subtotal", moneyJson (calculateSubtotal st.cart)),
             ("requiredSteps", jarr [.str "shipping", .str "payment"])] ++
            (match data.get? "shipping" with
             | some sh => if sh.truthy then [("shippingOptions", sh)] else []
             | none => [])))))
      | .error e => (st, .ok (errObj ("Checkout failed: " ++ e)))

/-- The ACP shipping-address body built from the raw address object
(lines 1378-1388); absent properties are omitted. -/
def acpShippingBody (address : Json) : Json :=
  jobj [("shipping_address", .obj (jfields (
    optField "name" (address.get? "name") ++
    optField "line1" (address.get? "line1") ++
    optField "line2" (address.get? "line2") ++
    optField "city" (address.get? "city") ++
    optField "state" (address.get? "state") ++
    optField "postal_code" (address.get? "postalCode") ++
    optField "country" (address.get? "country"))))]

/-- `ShoppingAgent.toolSubmitShipping` (lines 1368-1409): session guard,
then the address is stored; the ACP flow forwards it to the merchant,
the UCP flow simply acknowledges. -/
def toolSubmitShipping (env : AgentEnv) (st : AgentSt) (address : Json) :
    AgentSt × Except String Json :=
  if ¬ optTruthy st.checkoutSessionId then
    (st, .ok (errObj "No active checkout session. Call initiate_checkout first."))
  else
    let st := { st with shippingAddress := some address }
    let sid := st.checkoutSessionId.getD .null
    if st.protocol = some .acp ∧ env.acpEndpoint.isSome then
      match AcpClient.updateCheckout env.fetchO (env.acpEndpoint.getD "")
          (jsToStr sid) (acpShippingBody address) with
      | .ok session =>
        (st, .ok (jobj [("success", .bool true), ("sessionId", .str session.id),
                        ("status", .str session.status), ("totals", session.totals),
                        ("nextStep", .str "payment")]))
      | .error e => (st, .ok (errObj ("ACP shipping update failed: " ++ e)))
    else
      (st, .ok (jobj [("success", .bool true), ("sessionId", sid),
                      ("shippingAddress", address), ("nextStep", .str "payment")]))

/-- The ACP complete-checkout body (lines 1426-1429): token and handler
with their defaults. -/
def acpPaymentBody (args : Json) : Json :=
  jobj [("payment_token", (args.getNN "paymentToken").getD (.str "tok_mock_success")),
        ("payment_handler",
         (args.getNN "paymentMethod").getD (.str "stripe_shared_payment_token"))]

/-- The merchant call made by the ACP payment flow. -/
def acpPaymentCall (env : AgentEnv) (st : AgentSt) (args : Json) :
    Except String AcpClient.AcpSession :=
  AcpClient.completeCheckout env.fetchO (env.acpEndpoint.getD "")
    (jsToStr (st.checkoutSessionId.getD .null)) (acpPaymentBody args)

/-- The UCP complete-checkout body (lines 1463-1474). -/
def ucpPaymentBody (st : AgentSt) (args : Json) : Json :=
  jobj [("sessionId", st.checkoutSessionId.getD .null),
        ("items", jarrMap cartItemJson st.cart),
        ("shippingAddress", st.shippingAddress.getD .null),
        ("payment", .obj (jfields (
          optField "method" (args.getNN "paymentMethod") ++
          [("token", (args.getNN "paymentToken").getD (.str "tok_mock_success"))])))]

/-- The merchant call made by the UCP payment flow
(`callApi('/checkout/complete', ...)`). -/
def ucpPaymentCall (env : AgentEnv) (st : AgentSt) (args : Json) :
    UcpClientState × Except String Json × List UcpClient.Attempt :=
  UcpClient.callApi env.fetchO st.client env.preferredTransport "/checkout/complete"
    { method := some "POST", body := some (ucpPaymentBody st args) }

/-- `ShoppingAgent.toolSubmitPayment` (lines 1411-1505): session and
shipping guards (both before any protocol branch); then the bound
protocol's merchant call; only on its success an order is recorded and the
cart/session/shipping state cleared; a failed call yields an error payload
and leaves them untouched. -/
def toolSubmitPayment (env : AgentEnv) (st : AgentSt) (args : Json) :
    AgentSt × Except String Json :=
  if ¬ optTruthy st.checkoutSessionId then
    (st, .ok (errObj "No active checkout session. Call initiate_checkout first."))
  else if ¬ optTruthy st.shippingAddress then
    (st, .ok (errObj "Shipping address required before payment. Call submit_shipping first."))
  else if st.protocol = some .acp ∧ env.acpEndpoint.isSome then
    match acpPaymentCall env st args with
    | .ok session =>
      let orderId := "acp_" ++ session.id
      let order : MockOrder :=
        { id := orderId, status := .confirmed, items := st.cart,
          subtotal := calculateSubtotal st.cart, total := calculateSubtotal st.cart,
          shippingAddress := st.shippingAddress, createdAt := "" }
      let st := { st with orders := upsertKV st.orders orderId order,
                          cart := [], checkoutSessionId := none, shippingAddress := none }
      (st, .ok (jobj [("success", .bool true), ("orderId", .str orderId),
                      ("status", .str session.status), ("protocol", .str "acp"),
                      ("order", orderJson order)]))
    | .error e => (st, .ok (errObj ("ACP payment failed: " ++ e)))
  else
    let (cst, r, _) := ucpPaymentCall env st args
    let st := { st with client := cst }
    match r with
    | .ok data =>
      let orderId := jsToStr (((data.getNN "orderId").orElse fun _ =>
        data.getNN "id").getD (.str ("ord_" ++ toString 0)))
      let order : MockOrder :=
        { id := orderId, status := .confirmed, items := st.cart,
          subtotal := calculateSubtotal st.cart, total := calculateSubtotal st.cart,
          shippingAddress := st.shippingAddress, createdAt := "" }
      let st := { st with orders := upsertKV st.orders orderId order,
                          cart := [], checkoutSessionId := none, shippingAddress := none }
      (st, .ok (jobj [("success", .bool true), ("orderId", .str orderId),
                      ("status", .str "confirmed"), ("order", orderJson order)]))
    | .error e => (st, .ok (errObj ("Payment failed: " ++ e)))

/-- `ShoppingAgent.toolGetOrderStatus` (lines 1507-1513). -/
def toolGetOrderStatus (st : AgentSt) (orderId : String) :
    AgentSt × Except String Json :=
  match st.orders.find? fun p => p.1 = orderId with
  | some p => (st, .ok (jobj [("order", orderJson p.2)]))
  | none => (st, .ok (errObj ("Order not found: " ++ orderId)))

/-! #### Tool dispatch -/

/-- The names of the twelve built-in tools (the cases of the `switch` in
`executeTool`, which coincide with the `SHOPPING_AGENT_TOOLS` catalog). -/
def builtinToolNames : List String :=
  ["discover_merchant", "list_capabilities", "browse_products", "search_products",
   "get_product", "add_to_cart", "view_cart", "remove_from_cart",
   "initiate_checkout", "submit_shipping", "submit_payment", "get_order_status"]

/-- `ShoppingAgent.executeTool` (lines 1011-1059): a pure name dispatch
(the `switch` rendered as an if-chain); the default case consults the
plugin registry and otherwise reports an unknown tool.  The result is the
tool's return value (`ok`) or the error it threw (`error`); a plugin
handler may throw as well. -/
def executeToolE (env : AgentEnv) (st : AgentSt) (tc : ToolCall) :
    AgentSt × Except String Json :=
  let args := tc.arguments
  if tc.name = "discover_merchant" then
    toolDiscoverMerchant env st (jstr (args.getNN "domain"))
  else if tc.name = "list_capabilities" then toolListCapabilities st
  else if tc.name = "browse_products" then toolBrowseProducts env st args
  else if tc.name = "search_products" then toolSearchProducts env st args
  else if tc.name = "get_product" then
    toolGetProduct env st (jstr (args.getNN "productId"))
  else if tc.name = "add_to_cart" then toolAddToCart st args
  else if tc.name = "view_cart" then toolViewCart st
  else if tc.name = "remove_from_cart" then
    toolRemoveFromCart st (jstr (args.getNN "productId"))
  else if tc.name = "initiate_checkout" then toolInitiateCheckout env st
  else if tc.name = "submit_shipping" then toolSubmitShipping env st args
  else if tc.name = "submit_payment" then toolSubmitPayment env st args
  else if tc.name = "get_order_status" then
    toolGetOrderStatus st (jstr (args.getNN "orderId"))
  else
    match env.plugins.find? fun p => p.1 = tc.name with
    | some p => (st, p.2 args)
    | none => (st, .ok (errObj ("Unknown tool: " ++ tc.name)))

/-- The `{error: <message>}` replacement performed by the catch inside the
orchestrator loop (lines 817-822). -/
def resultPayload : Except String Json → Json
  | .ok v => v
  | .error e => errObj e

/-! #### The orchestrator loops -/

/-- The tool-execution for-loop body of `run` (lines 809-837): record a
`tool_call` step, execute the tool with the loop-level catch, record a
`tool_result` step, and append a tool message tagged by tool name.  The
`toolExecs` update is instrumentation. -/
def execToolCalls (env : AgentEnv) :
    AgentSt → List ChatMessage → List ToolCall → AgentSt × List ChatMessage
  | st, msgs, [] => (st, msgs)
  | st, msgs, tc :: rest =>
    let st := recordStep st .tool_call (some tc.name) (some tc.arguments) none none
    let (st, r) := executeToolE env st tc
    let payload := resultPayload r
    let st := { st with toolExecs := st.toolExecs ++ [(tc.name, payload)] }
    let st := recordStep st .tool_result (some tc.name) none (some payload) none
    let msgs := msgs ++
      [{ role := .tool, content := stringify payload, toolCallId := some tc.name }]
    execToolCalls env st msgs rest

/-- The failure answer produced when the loop exhausts `maxIterations`
(lines 841-845). -/
def maxIterMsg (maxIterations : Nat) : String :=
  "Agent reached maximum iterations (" ++ toString maxIterations ++
    ") without completing the task."

/-- `ShoppingAgent.buildResult` (lines 1541-1585). -/
def buildResult (st : AgentSt) (success : Bool) (answer : String) : AgentResult :=
  let discovery : Option MerchantInfo :=
    if st.protocol = some .acp ∧ st.acpBaseUrl.isSome then
      some { domain := UcpClient.stripScheme (st.acpBaseUrl.getD ""),
             profile := { ucp := some { version := some "acp-2026-01-30",
                                        services := [], capabilities := .arrS [] },
                          paymentHandlers := none } }
    else
      match st.client.discovery with
      | some d => some { domain := d.domain, profile := d.profile }
      | none => none
  let lastOrder := st.orders.getLast?
  let checkout : Option CheckoutResult := lastOrder.map fun p =>
    { orderId := p.2.id,
      status := if p.2.status = .confirmed then .completed else .pending,
      items := p.2.items, total := p.2.total, paymentMethod := "mock",
      fulfillmentMethod := "standard", estimatedDelivery := "" }
  { success := success, answer := answer, steps := st.steps,
    iterations := st.iteration, merchant := discovery, checkout := checkout }

/-- The `while` loop of `ShoppingAgent.run` (lines 778-845), by recursion
on the remaining iterations (`fuel = maxIterations - iteration`, the loop
guard `iteration < maxIterations`).  Each pass increments the iteration
counter, asks the adapter, records a `thinking` step for non-empty text,
terminates successfully when the adapter signals `stop` or requests no
tools, and otherwise executes the requested tool calls in order.
`llmCalls` counts adapter calls (instrumentation). -/
def runLoop (env : AgentEnv) (maxIterations : Nat) :
    AgentSt → List ChatMessage → Nat → AgentResult × AgentSt
  | st, _, 0 => (buildResult st false (maxIterMsg maxIterations), st)
  | st, msgs, fuel + 1 =>
    let st := { st with iteration := st.iteration + 1, llmCalls := st.llmCalls + 1 }
    let resp := env.chat msgs
    let st := if resp.content ≠ "" then
        recordStep st .thinking none none none (some resp.content)
      else st
    if resp.finishReason = .stop ∨ resp.toolCalls = [] then
      (buildResult st true resp.content, st)
    else
      let msgs := msgs ++
        [{ role := .assistant, content := resp.content, toolCalls := resp.toolCalls }]
      let (st, msgs) := execToolCalls env st msgs resp.toolCalls
      runLoop env maxIterations st msgs fuel

/-- `ShoppingAgent.run` (lines 771-845): reset the iteration counter and
drive the loop from the single user message. -/
def run (env : AgentEnv) (maxIterations : Nat) (st : AgentSt) (task : String) :
    AgentResult × AgentSt :=
  runLoop env maxIterations { st with iteration := 0, llmCalls := 0, toolExecs := [] }
    [{ role := .user, content := task }] maxIterations

/-! #### The streaming loop (buffered adapter)

`runStream` (lines 854-989) for an adapter without `chatStream`
(`supportsStreaming === false`): the buffered `chat` call is made and its
full text emitted as a single `text_delta` event. -/

/-- `AgentStreamEvent`s, as emitted by `runStream` (timestamps
abstracted). -/
inductive StreamEvent where
  | text_delta (iteration : Nat) (text : String)
  | tool_call (iteration : Nat) (toolName : String) (toolInput : Json)
  | tool_result (iteration : Nat) (toolName : String) (toolOutput : Json)
  | done (result : AgentResult) (iteration : Nat)
deriving DecidableEq

/-- The tool-execution for-loop body of `runStream` (lines 929-972):
identical to `execToolCalls` except that `tool_call` / `tool_result`
events are additionally yielded. -/
def execToolCallsStream (env : AgentEnv) :
    AgentSt → List ChatMessage → List ToolCall →
      List StreamEvent × AgentSt × List ChatMessage
  | st, msgs, [] => ([], st, msgs)
  | st, msgs, tc :: rest =>
    let st := recordStep st .tool_call (some tc.name) (some tc.arguments) none none
    let ev1 := StreamEvent.tool_call st.iteration tc.name tc.arguments
    let (st, r) := executeToolE env st tc
    let payload := resultPayload r
    let st := { st with toolExecs := st.toolExecs ++ [(tc.name, payload)] }
    let st := recordStep st .tool_result (some tc.name) none (some payload) none
    let ev2 := StreamEvent.tool_result st.iteration tc.name payload
    let msgs := msgs ++
      [{ role := .tool, content := stringify payload, toolCallId := some tc.name }]
    let (evs, st, msgs) := execToolCallsStream env st msgs rest
    (ev1 :: ev2 :: evs, st, msgs)

/-- The `while` loop of `ShoppingAgent.runStream` for a buffered adapter
(lines 864-980).  Note the termination test: only `toolCalls.length === 0`
(line 915) — unlike `run`, the `finishReason` is not consulted. -/
def runStreamLoop (env : AgentEnv) (maxIterations : Nat) :
    AgentSt → List ChatMessage → Nat → List StreamEvent × AgentResult × AgentSt
  | st, _, 0 =>
    let r := buildResult st false (maxIterMsg maxIterations)
    ([.done r st.iteration], r, st)
  | st, msgs, fuel + 1 =>
    let st := { st with iteration := st.iteration + 1, llmCalls := st.llmCalls + 1 }
    let resp := env.chat msgs
    let textContent := resp.content
    let toolCalls := resp.toolCalls
    let evs0 := if textContent ≠ "" then
        [StreamEvent.text_delta st.iteration textContent]
      else []
    let st := if textContent ≠ "" then
        recordStep st .thinking none none none (some textContent)
      else st
    if toolCalls = [] then
      let r := buildResult st true textContent
      (evs0 ++ [.done r st.iteration], r, st)
    else
      let msgs := msgs ++
        [{ role := .assistant, content := textContent, toolCalls := toolCalls }]
      let (evs1, st, msgs) := execToolCallsStream env st msgs toolCalls
      let (evs2, r, st') := runStreamLoop env maxIterations st msgs fuel
      (evs0 ++ evs1 ++ evs2, r, st')

/-- `ShoppingAgent.runStream` (buffered adapter): reset the iteration
counter and drive the streaming loop from the single user message. -/
def runStream (env : AgentEnv) (maxIterations : Nat) (st : AgentSt) (task : String) :
    List StreamEvent × AgentResult × AgentSt :=
  runStreamLoop env maxIterations
    { st with iteration := 0, llmCalls := 0, toolExecs := [] }
    [{ role := .user, content := task }] maxIterations

end ShoppingAgent

/-! ### Cart observations used by the cart theorems -/

/-- The product ids of the cart lines, in order. -/
def cartKeys (cart : List CartItem) : List String := cart.map fun it => it.productId

/-- Uniqueness of the cart by product id. -/
def cartUnique (cart : List CartItem) : Prop := (cartKeys cart).Nodup

/-- The cart lines carrying a given product id. -/
def pidLines (pid : String) (cart : List CartItem) : List CartItem :=
  cart.filter fun it => it.productId = pid

/-- Total quantity recorded for a given product id. -/
def pidQty (pid : String) (cart : List CartItem) : Int :=
  ((pidLines pid cart).map fun it => it.quantity).sum

/-- The `add_to_cart` tool-argument object for a product id and quantity. -/
def addArgs (pid : String) (q : Int) : Json :=
  jobj [("productId", .str pid), ("quantity", .num q)]

/-! ### Concrete data for the C6 witness -/

/-- Three capability records (two versions under one name) in flat form. -/
def c6Caps : List UcpCapability :=
  [{ name := "a", version := some "1", spec := "sa", schema := "ca",
     capExtends := none, config := none },
   { name := "a", version := some "2", spec := "", schema := "",
     capExtends := some "x", config := some (Json.num 1) },
   { name := "b", version := some "1", spec := "sb", schema := "cb",
     capExtends := none, config := none }]

/-- The same capabilities presented as a map keyed by capability name
(absent spec/schema in an entry corresponds to `""` in the flat record). -/
def c6Keyed : List (String × List VersionEntry) :=
  [("a", [{ version := "1", spec := some "sa", schema := some "ca",
            capExtends := none, config := none },
          { version := "2", spec := none, schema := none,
            capExtends := some "x", config := some (Json.num 1) }]),
   ("b", [{ version := "1", spec := some "sb", schema := some "cb",
            capExtends := none, config := none }])]

/-! ### Concrete data for C5 -/

/-- A valid minimal profile document. -/
def c5Profile : UcpProfile :=
  { ucp := some { version := some "1.0", services := [], capabilities := .arrS [] },
    paymentHandlers := none }

/-- Counterexample oracle: every `https://` probe fails; the profile is
served only over plain `http://`. -/
def c5Fetch : UcpClient.ProfileFetch := fun url =>
  if url = "http://shop.test/.well-known/ucp" then some c5Profile else none

/-- Witness oracle: the profile is served at the first probed URL. -/
def c5wFetch : UcpClient.ProfileFetch := fun url =>
  if url = "https://shop.test/.well-known/ucp" then some c5Profile else none

/-! ### Concrete data for the C3 witness -/

/-- A REST transport binding. -/
def c3Rest : Transport := { schema := "", endpoint := "https://m.test/api" }

/-- An MCP transport binding. -/
def c3Mcp : Transport := { schema := "", endpoint := "https://m.test/mcp" }

/-- A service exposing both transports. -/
def c3Service : NormalizedService :=
  { name := "shop", version := "1", spec := "", rest := some c3Rest,
    mcp := some c3Mcp, a2a := none }

/-- A service exposing only REST. -/
def c3ServiceRestOnly : NormalizedService :=
  { name := "shop", version := "1", spec := "", rest := some c3Rest,
    mcp := none, a2a := none }

/-- Discovery result with both transports bound. -/
def c3Disc : DiscoveryResult :=
  { profile := c5Profile, profileUrl := "", domain := "m.test", version := "1.0",
    services := [c3Service], capabilities := [], paymentHandlers := [] }

/-- Discovery result with only REST bound. -/
def c3DiscRestOnly : DiscoveryResult :=
  { c3Disc with services := [c3ServiceRestOnly] }

/-- Client state after discovering `c3Disc`. -/
def c3St : UcpClientState :=
  { discovery := some c3Disc, mcpEndpointCached := none, mcpRequestId := 0 }

/-- Client state after discovering `c3DiscRestOnly`. -/
def c3StRestOnly : UcpClientState :=
  { discovery := some c3DiscRestOnly, mcpEndpointCached := none, mcpRequestId := 0 }

/-- Network for the C3 witness: the MCP endpoint answers 500, the REST
products route answers 200 with a JSON body. -/
def c3FetchO : FetchOracle := fun url _ _ =>
  if url = "https://m.test/mcp" then .http 500 none
  else if url = "https://m.test/api/products" then
    .http 200 (some (jobj [("products", jarr [])]))
  else .netErr "down"

/-! ### Concrete data for the C9 witness -/

/-- A session in a given status. -/
def c9S (status : AcpServer.Status) : AcpServer.Session :=
  { id := "cs_1", status := status, shippingAddress := none }

/-- A shipping address. -/
def c9Addr : ShippingAddress :=
  { name := "n", line1 := "l1", line2 := none, city := "c", state := "s",
    postalCode := "94105", country := "US" }

/-! ### Concrete data for the agent-loop claims -/

/-- A tool call whose name matches no built-in tool and no plugin. -/
def cexCall : ToolCall := { id := "1", name := "noop", arguments := jobj [] }

/-- A quiet environment: the adapter immediately stops, the network is
down, no ACP endpoint, no plugins. -/
def baseEnv : ShoppingAgent.AgentEnv :=
  { chat := fun _ => { content := "", toolCalls := [], finishReason := .stop },
    fetchO := fun _ _ _ => .netErr "down",
    profileFetchO := fun _ => none,
    acpEndpoint := none }

/-- An adapter that requests a tool on every call and never signals stop. -/
def ntEnv : ShoppingAgent.AgentEnv :=
  { baseEnv with
    chat := fun _ => { content := "", toolCalls := [cexCall], finishReason := .tool_calls } }

/-- An adapter that signals `stop` while still requesting a tool call —
the divergence input for C4. -/
def c4Env : ShoppingAgent.AgentEnv :=
  { baseEnv with
    chat := fun _ => { content := "done", toolCalls := [cexCall], finishReason := .stop } }

/-- A well-behaved buffered adapter (stop with no tool calls). -/
def c4wEnv : ShoppingAgent.AgentEnv :=
  { baseEnv with
    chat := fun _ => { content := "done", toolCalls := [], finishReason := .stop } }

/-- One cart line. -/
def c8Item : CartItem :=
  { productId := "p", name := "p", quantity := 1,
    price := { amount := "0", currency := "USD" } }

/-- Session started, no shipping address yet. -/
def c8StNoShip : ShoppingAgent.AgentSt :=
  { ShoppingAgent.AgentSt.init with
    cart := [c8Item], checkoutSessionId := some (.str "cs_1") }

/-- Session started and shipping submitted. -/
def c8StReady : ShoppingAgent.AgentSt :=
  { c8StNoShip with shippingAddress := some (jobj [("name", .str "N")]) }

/-- Like `c8StReady` with the ACP protocol bound. -/
def c8StReadyAcp : ShoppingAgent.AgentSt :=
  { c8StReady with protocol := some .acp }

/-- Environment with an ACP endpoint configured (network still down). -/
def c8EnvAcp : ShoppingAgent.AgentEnv :=
  { baseEnv with acpEndpoint := some "http://acp.test" }

/-- Payment tool arguments. -/
def c8Args : Json :=
  jobj [("paymentMethod", .str "mock"), ("paymentToken", .str "tok")]

/-! ### Lemmas about the cart update -/

lemma toolAddToCart_cart (st : ShoppingAgent.AgentSt) (pid : String) (q : Int) :
    ((ShoppingAgent.toolAddToCart st (addArgs pid q)).1).cart =
      addToCartList pid q st.cart := rfl

lemma cartKeys_addToCartList (pid : String) (q : Int) (cart : List CartItem) :
    cartKeys (addToCartList pid q cart) =
      if cart.any (fun it => it.productId = pid) then cartKeys cart
      else cartKeys cart ++ [pid] := by
  induction cart with
  | nil => simp [addToCartList, cartKeys]
  | cons it rest ih =>
    by_cases h : it.productId = pid
    · simp [addToCartList, h, cartKeys]
    · by_cases h2 : rest.any (fun x => x.productId = pid)
      · simp [addToCartList, h, h2, cartKeys] at ih ⊢
        simpa [cartKeys] using ih
      · simp [addToCartList, h, h2, cartKeys] at ih ⊢
        simpa [cartKeys] using ih

lemma any_eq_mem_cartKeys (pid : String) (cart : List CartItem) :
    cart.any (fun it => it.productId = pid) = true ↔ pid ∈ cartKeys cart := by
  simp [cartKeys, List.any_eq_true, List.mem_map]

lemma cartUnique_addToCartList (pid : String) (q : Int) (cart : List CartItem)
    (h : cartUnique cart) : cartUnique (addToCartList pid q cart) := by
  unfold cartUnique
  rw [cartKeys_addToCartList]
  by_cases ha : cart.any (fun it => it.productId = pid)
  · simpa [ha] using h
  · have hmem : pid ∉ cartKeys cart := by
      intro hc
      exact absurd ((any_eq_mem_cartKeys pid cart).2 hc) (by simpa using ha)
    simp only [ha, if_neg, Bool.false_eq_true, if_false]
    rw [List.nodup_append]
    exact ⟨h, List.nodup_singleton pid, by simpa [List.disjoint_singleton] using hmem⟩

lemma pidQty_addToCartList (pid : String) (q : Int) (cart : List CartItem) :
    pidQty pid (addToCartList pid q cart) = pidQty pid cart + q := by
  induction cart with
  | nil => simp [addToCartList, pidQty, pidLines]
  | cons it rest ih =>
    by_cases h : it.productId = pid
    · simp [addToCartList, h, pidQty, pidLines]
      ring
    · simp [addToCartList, h, pidQty, pidLines] at ih ⊢
      omega

lemma pidLines_length_addToCartList (pid : String) (q : Int) (cart : List CartItem) :
    (pidLines pid (addToCartList pid q cart)).length =
      if cart.any (fun it => it.productId = pid) then (pidLines pid cart).length
      else (pidLines pid cart).length + 1 := by
  induction cart with
  | nil => simp [addToCartList, pidLines]
  | cons it rest ih =>
    by_cases h : it.productId = pid
    · simp [addToCartList, h, pidLines]
    · by_cases h2 : rest.any (fun x => x.productId = pid)
      · simp [addToCartList, h, h2, pidLines] at ih ⊢; exact ih
      · simp [addToCartList, h, h2, pidLines] at ih ⊢; exact ih

/-- After a fold of same-product adds over a cart already containing the
product, the line count and keys are preserved and the quantity accumulates. -/
lemma foldl_addToCartList_present (pid : String) (qs : List Int) :
    ∀ cart : List CartItem, cart.any (fun it => it.productId = pid) = true →
      let final := qs.foldl (fun c q => addToCartList pid q c) cart
      (pidLines pid final).length = (pidLines pid cart).length ∧
      pidQty pid final = pidQty pid cart + qs.sum ∧
      cartKeys final = cartKeys cart := by
  induction qs with
  | nil => intro cart _; simp
  | cons q qs ih =>
    intro cart ha
    have hkeys := cartKeys_addToCartList pid q cart
    rw [ha] at hkeys
    simp only [if_true] at hkeys
    have ha2 : (addToCartList pid q cart).any (fun it => it.productId = pid) = true := by
      rw [any_eq_mem_cartKeys, hkeys, ← any_eq_mem_cartKeys]; exact ha
    have h3 := ih (addToCartList pid q cart) ha2
    simp only [List.foldl_cons]
    refine ⟨?_, ?_, ?_⟩
    · rw [h3.1, pidLines_length_addToCartList, ha]; simp
    · rw [h3.2.1, pidQty_addToCartList]; simp [List.sum_cons]; ring
    · rw [h3.2.2, hkeys]

/-- C7.  For every sequence of `add_to_cart` calls sharing one productId,
the resulting cart has exactly one line for that id, its quantity is the
sum of the requested quantities, and the cart stays unique by productId;
moreover one `add_to_cart` update always preserves uniqueness. -/
theorem claim_C7_cart_unique_accumulation :
    (∀ (pid : String) (q : Int) (cart : List CartItem),
       cartUnique cart → cartUnique (addToCartList pid q cart))
    ∧ ∀ (pid : String) (qs : List Int) (st : ShoppingAgent.AgentSt),
        cartUnique st.cart → pidLines pid st.cart = [] → qs ≠ [] →
        let final := (qs.foldl
          (fun s q => (ShoppingAgent.toolAddToCart s (addArgs pid q)).1) st).cart
        (pidLines pid final).length = 1 ∧ pidQty pid final = qs.sum ∧ cartUnique final := by
  constructor
  · exact fun pid q cart h => cartUnique_addToCartList pid q cart h
  · intro pid qs st hu hnone hne
    have hfold : ∀ (qs : List Int) (s : ShoppingAgent.AgentSt),
        (qs.foldl (fun s q => (ShoppingAgent.toolAddToCart s (addArgs pid q)).1) s).cart =
          qs.foldl (fun c q => addToCartList pid q c) s.cart := by
      intro qs
      induction qs with
      | nil => intro s; rfl
      | cons q qs ih =>
        intro s
        simp only [List.foldl_cons]
        rw [ih]
        rfl
    have hany : st.cart.any (fun it => it.productId = pid) = false := by
      by_contra hc
      have : st.cart.any (fun it => it.productId = pid) = true := by
        revert hc; cases st.cart.any (fun it => it.productId = pid) <;> simp
      obtain ⟨x, hx, he⟩ := by simpa [List.any_eq_true] using this
      have : x ∈ pidLines pid st.cart := by
        simp [pidLines, List.mem_filter, hx, he]
      rw [hnone] at this
      exact absurd this (List.not_mem_nil x)
    obtain ⟨q, qs', rfl⟩ : ∃ q qs', qs = q :: qs' := by
      cases qs with
      | nil => exact absurd rfl hne
      | cons q qs' => exact ⟨q, qs', rfl⟩
    intro final
    have hfinal : final = (q :: qs').foldl (fun c q => addToCartList pid q c) st.cart := by
      simpa [final] using hfold (q :: qs') st
    have hkeys1 := cartKeys_addToCartList pid q st.cart
    rw [hany] at hkeys1
    simp only [Bool.false_eq_true, if_false] at hkeys1
    have ha1 : (addToCartList pid q st.cart).any (fun it => it.productId = pid) = true := by
      rw [any_eq_mem_cartKeys, hkeys1]; simp
    have h3 := foldl_addToCartList_present pid qs' (addToCartList pid q st.cart) ha1
    simp only [List.foldl_cons] at hfinal
    have hlen0 : (pidLines pid st.cart).length = 0 := by rw [hnone]; rfl
    have hlen1 : (pidLines pid (addToCartList pid q st.cart)).length = 1 := by
      rw [pidLines_length_addToCartList, hany]; simp [hlen0]
    have hqty0 : pidQty pid st.cart = 0 := by simp [pidQty, hnone]
    have hqty1 : pidQty pid (addToCartList pid q st.cart) = q := by
      rw [pidQty_addToCartList, hqty0]; ring
    refine ⟨?_, ?_, ?_⟩
    · rw [hfinal, h3.1, hlen1]
    · rw [hfinal, h3.2.1, hqty1]; simp [List.sum_cons]
    · have hu1 : cartUnique (addToCartList pid q st.cart) :=
        cartUnique_addToCartList pid q st.cart hu
      unfold cartUnique
      rw [hfinal, h3.2.2]
      exact hu1

/-- Final cart of the C7 witness scenario: two `add_to_cart` calls for
product `"p"` with quantities 2 and 3 from a fresh agent. -/
def c7FinalCart : List CartItem :=
  (([2, 3] : List Int).foldl
    (fun s q => (ShoppingAgent.toolAddToCart s (addArgs "p" q)).1)
    ShoppingAgent.AgentSt.init).cart

theorem claim_C7_witness :
    (pidLines "p" c7FinalCart).length = 1 ∧
    pidQty "p" c7FinalCart = ([2, 3] : List Int).sum ∧
    cartUnique c7FinalCart := by
  have h := claim_C7_cart_unique_accumulation.2 "p" [2, 3] ShoppingAgent.AgentSt.init
    (by simp [cartUnique, cartKeys, ShoppingAgent.AgentSt.init])
    (by rfl) (by simp)
  simpa [c7FinalCart] using h

/-- C10.  `getCart` reports a subtotal currency equal to the first cart
line's currency (`'USD'` for an empty cart), ignoring the currencies of all
later lines, and the empty cart yields amount `"0.00"`, itemCount 0 and no
items. -/
theorem claim_C10_subtotal_currency :
    (∀ cart : List CartItem, (getCart cart).subtotal.currency =
        match cart with
        | [] => "USD"
        | it :: _ => it.price.currency)
    ∧ (∀ (it : CartItem) (rest rest' : List CartItem),
        (getCart (it :: rest)).subtotal.currency =
          (getCart (it :: rest')).subtotal.currency)
    ∧ getCart [] =
        { items := [], subtotal := { amount := "0.00", currency := "USD" },
          itemCount := 0 } := by
  refine ⟨?_, ?_, ?_⟩
  · intro cart
    cases cart <;> simp [getCart, calculateSubtotal]
  · intro it rest rest'
    simp [getCart, calculateSubtotal]
  · have hfloor : ⌊(0 : ℚ) * 100 + 1 / 2⌋ = 0 := by
      rw [Int.floor_eq_zero_iff]
      constructor <;> norm_num
    simp only [getCart, calculateSubtotal, toFixed2, List.map_nil, List.sum_nil,
      List.head?_nil, Option.map_none', Option.getD_none, hfloor]
    rfl

/-- C6.  Capability normalization is shape-invariant: an array-form
profile and a keyed-map-form profile presenting the same flat capability
records (name from the key; spec/schema defaulting to `""`; optional
extends/config) normalize to identical flat records, namely exactly those
records. -/
theorem claim_C6_capability_shape_invariance :
    ∀ (profileVersion : Option String) (m : List (String × List VersionEntry))
      (cs : List UcpCapability),
      (m.flatMap fun p => p.2.map fun e => UcpClient.capOfEntry p.1 e) = cs →
      UcpClient.normalizeCapabilities profileVersion (.keyedS m) =
          UcpClient.normalizeCapabilities profileVersion (.arrS (cs.map .objE))
        ∧ UcpClient.normalizeCapabilities profileVersion (.arrS (cs.map .objE)) = cs := by
  intro v m cs h
  have harr : ∀ cs : List UcpCapability,
      UcpClient.normalizeCapabilities v (.arrS (cs.map .objE)) = cs := by
    intro cs
    induction cs with
    | nil => rfl
    | cons c cs ih =>
      simp only [UcpClient.normalizeCapabilities, List.map_cons] at ih ⊢
      rw [ih]
  have hkeyed : UcpClient.normalizeCapabilities v (.keyedS m) = cs := by
    simpa [UcpClient.normalizeCapabilities] using h
  exact ⟨by rw [hkeyed, harr], harr cs⟩

theorem claim_C6_witness :
    UcpClient.normalizeCapabilities (some "1") (.keyedS c6Keyed) =
        UcpClient.normalizeCapabilities (some "1") (.arrS (c6Caps.map .objE))
      ∧ UcpClient.normalizeCapabilities (some "1") (.arrS (c6Caps.map .objE)) = c6Caps :=
  claim_C6_capability_shape_invariance (some "1") c6Keyed c6Caps (by rfl)

/-- C9 counterexample.  The merchant's cancel handler rejects only
`completed`: canceling an already-canceled session is not refused — the
server replies 200 with the session still `canceled` — refuting the
original claim that `canceled` is terminal for every action (including
cancel). -/
theorem claim_C9_counterexample :
    (AcpServer.cancel (c9S .canceled)).2 = .ok (c9S .canceled)
    ∧ (AcpServer.cancel (c9S .canceled)).1 = c9S .canceled :=
  ⟨rfl, rfl⟩

/-- C9 (amended).  The merchant's session state machine: creation
readiness depends on the presence of a shipping address; updating a
non-terminal session with an address makes it ready; completing from
`not_ready_for_payment` always fails with a 400; the declined token
returns the session to `not_ready_for_payment` with a 402, a valid one
completes it; `completed` is terminal — complete, cancel and update all
fail there without changing the session; on a `canceled` session complete
and update fail, but cancel succeeds with a 200, leaving the session
canceled. -/
theorem claim_C9_acp_state_machine :
    (∀ (products : List String) (id : String) (pids : List String)
        (addr : Option ShippingAddress),
        pids ≠ [] → (∀ p ∈ pids, p ∈ products) →
        AcpServer.create products id pids addr =
          .ok { id := id,
                status := if addr.isSome then .ready_for_payment
                          else .not_ready_for_payment,
                shippingAddress := addr })
    ∧ (∀ (s : AcpServer.Session) (a : ShippingAddress),
        s.status = .not_ready_for_payment →
        AcpServer.update s (some a) =
          .ok { s with shippingAddress := some a, status := .ready_for_payment })
    ∧ (∀ (s : AcpServer.Session) (token handler : Option String),
        s.status = .not_ready_for_payment →
        (AcpServer.complete s token handler).1 = s ∧
        ∃ e, (AcpServer.complete s token handler).2 = .error (400, e))
    ∧ (∀ (s : AcpServer.Session) (h : String),
        s.status = .ready_for_payment → h ≠ "" →
        (AcpServer.complete s (some "tok_mock_failure") (some h)).1.status =
          .not_ready_for_payment ∧
        (AcpServer.complete s (some "tok_mock_failure") (some h)).2 =
          .error (402, "Payment declined"))
    ∧ (∀ (s : AcpServer.Session) (t h : String),
        s.status = .ready_for_payment → t ≠ "" → h ≠ "" →
        t ≠ "tok_mock_failure" →
        (AcpServer.complete s (some t) (some h)).1.status = .completed ∧
        (AcpServer.complete s (some t) (some h)).2 =
          .ok { s with status := .completed })
    ∧ (∀ s : AcpServer.Session, s.status = .completed →
        (∀ token handler,
          (AcpServer.complete s token handler).1 = s ∧
          ∃ e, (AcpServer.complete s token handler).2 = .error e) ∧
        ((AcpServer.cancel s).1 = s ∧ ∃ e, (AcpServer.cancel s).2 = .error e) ∧
        (∀ a, ∃ e, AcpServer.update s a = .error e))
    ∧ (∀ s : AcpServer.Session, s.status = .canceled →
        (∀ token handler,
          (AcpServer.complete s token handler).1 = s ∧
          ∃ e, (AcpServer.complete s token handler).2 = .error e) ∧
        (∀ a, ∃ e, AcpServer.update s a = .error e) ∧
        ((AcpServer.cancel s).1 = s ∧ (AcpServer.cancel s).2 = .ok s)) := by
  refine ⟨?_, ?_, ?_, ?_, ?_, ?_, ?_⟩
  · intro products id pids addr hne hmem
    have hempty : pids.isEmpty = false := by
      cases pids with
      | nil => exact absurd rfl hne
      | cons a l => rfl
    have hfind : pids.find? (fun pid => !decide (pid ∈ products)) = none := by
      rw [List.find?_eq_none]
      intro x hx
      simpa using hmem x hx
    simp [AcpServer.create, hempty, hfind]
  · intro s a h
    rcases s with ⟨i, st, ad⟩
    have hst : st = AcpServer.Status.not_ready_for_payment := h
    subst hst
    rfl
  · intro s token handler h
    rcases s with ⟨i, st, ad⟩
    have hst : st = AcpServer.Status.not_ready_for_payment := h
    subst hst
    exact ⟨rfl, _, rfl⟩
  · intro s h hs hh
    rcases s with ⟨i, st, ad⟩
    have hst : st = AcpServer.Status.ready_for_payment := hs
    subst hst
    constructor
    · simp [AcpServer.complete, AcpServer.present, hh]
    · simp [AcpServer.complete, AcpServer.present, hh]
  · intro s t h hs ht hh htok
    rcases s with ⟨i, st, ad⟩
    have hst : st = AcpServer.Status.ready_for_payment := hs
    subst hst
    constructor
    · simp [AcpServer.complete, AcpServer.present, ht, hh, htok]
    · simp [AcpServer.complete, AcpServer.present, ht, hh, htok]
  · intro s h
    rcases s with ⟨i, st, ad⟩
    have hst : st = AcpServer.Status.completed := h
    subst hst
    exact ⟨fun token handler => ⟨rfl, _, rfl⟩, ⟨rfl, _, rfl⟩, fun a => ⟨_, rfl⟩⟩
  · intro s h
    rcases s with ⟨i, st, ad⟩
    have hst : st = AcpServer.Status.canceled := h
    subst hst
    exact ⟨fun token handler => ⟨rfl, _, rfl⟩, fun a => ⟨_, rfl⟩, rfl, rfl⟩

theorem claim_C9_witness :
    AcpServer.create ["p1"] "cs_1" ["p1"] none =
      .ok { id := "cs_1", status := .not_ready_for_payment,
            shippingAddress := none }
    ∧ AcpServer.create ["p1"] "cs_1" ["p1"] (some c9Addr) =
      .ok { id := "cs_1", status := .ready_for_payment,
            shippingAddress := some c9Addr }
    ∧ AcpServer.update (c9S .not_ready_for_payment) (some c9Addr) =
        .ok { c9S .not_ready_for_payment with
              shippingAddress := some c9Addr, status := .ready_for_payment }
    ∧ (AcpServer.complete (c9S .not_ready_for_payment) (some "tok_ok")
        (some "stripe_shared_payment_token")).1 = c9S .not_ready_for_payment
    ∧ (AcpServer.complete (c9S .ready_for_payment) (some "tok_mock_failure")
        (some "stripe_shared_payment_token")).1.status = .not_ready_for_payment
    ∧ (AcpServer.complete (c9S .ready_for_payment) (some "tok_ok")
        (some "stripe_shared_payment_token")).1.status = .completed
    ∧ (AcpServer.cancel (c9S .completed)).1 = c9S .completed
    ∧ (∃ e, (AcpServer.cancel (c9S .completed)).2 = .error e)
    ∧ (AcpServer.cancel (c9S .canceled)).1 = c9S .canceled := by
  refine ⟨claim_C9_acp_state_machine.1 ["p1"] "cs_1" ["p1"] none
            (by simp) (fun p hp => hp),
          claim_C9_acp_state_machine.1 ["p1"] "cs_1" ["p1"] (some c9Addr)
            (by simp) (fun p hp => hp),
          claim_C9_acp_state_machine.2.1 (c9S .not_ready_for_payment) c9Addr rfl,
          (claim_C9_acp_state_machine.2.2.1 (c9S .not_ready_for_payment)
            (some "tok_ok") (some "stripe_shared_payment_token") rfl).1,
          (claim_C9_acp_state_machine.2.2.2.1 (c9S .ready_for_payment)
            "stripe_shared_payment_token" rfl (by simp)).1,
          (claim_C9_acp_state_machine.2.2.2.2.1 (c9S .ready_for_payment)
            "tok_ok" "stripe_shared_payment_token" rfl (by simp) (by simp)
            (by simp)).1,
          ((claim_C9_acp_state_machine.2.2.2.2.2.1 (c9S .completed) rfl).2.1).1,
          ((claim_C9_acp_state_machine.2.2.2.2.2.1 (c9S .completed) rfl).2.1).2,
          ((claim_C9_acp_state_machine.2.2.2.2.2.2 (c9S .canceled) rfl).2.2).1⟩

/-! ### Lemmas about discovery probing -/

lemma firstProbe_all_none (fetchO : UcpClient.ProfileFetch) :
    ∀ l : List String, (∀ u ∈ l, fetchO u = none) →
      UcpClient.firstProbe fetchO l = none := by
  intro l h
  induction l with
  | nil => rfl
  | cons u rest ih =>
    have hu := h u (by simp)
    simp only [UcpClient.firstProbe, hu]
    exact ih fun v hv => h v (by simp [hv])

lemma firstProbe_append (fetchO : UcpClient.ProfileFetch) (l1 : List String)
    (u : String) (l2 : List String) (p : UcpProfile)
    (h1 : ∀ v ∈ l1, fetchO v = none) (hu : fetchO u = some p) :
    UcpClient.firstProbe fetchO (l1 ++ u :: l2) = some (u, p) := by
  induction l1 with
  | nil => simp [UcpClient.firstProbe, hu]
  | cons v rest ih =>
    have hv := h1 v (by simp)
    simp only [List.cons_append, UcpClient.firstProbe, hv]
    exact ih fun w hw => h1 w (by simp [hw])

/-- C5 counterexample.  The claim says an explicitly given scheme is
preserved, so `discover("https://shop.test")` should probe only `https://`
URLs and fail when they all miss.  In fact both `https://` probes miss and
discovery still succeeds through the `http://` fallback probe: the
fallback guard tests `startsWith('http://')`, not whether the scheme was
explicit. -/
theorem claim_C5_counterexample :
    c5Fetch "https://shop.test/.well-known/ucp" = none
    ∧ c5Fetch "https://shop.test/.well-known/ucp.json" = none
    ∧ UcpClient.discover c5Fetch "https://shop.test" =
        .ok { profile := c5Profile,
              profileUrl := "http://shop.test/.well-known/ucp",
              domain := "shop.test", version := "1.0", services := [],
              capabilities := [], paymentHandlers := [] } :=
  ⟨rfl, rfl, rfl⟩

/-- C5 (amended).  `discover(domain)` preserves an explicitly given
`http://` scheme; for any other domain — an explicit `https://` scheme
included — it probes the `https://` base and then its `http://` fallback.
Per base the two well-known paths are probed strictly in order, the first
2xx JSON response wins, a discovery error is thrown when no probe
resolves, and a resolved profile without the root `ucp` object fails. -/
theorem claim_C5_discover_probe_order :
    (∀ domain : String, strStartsWith domain "http://" = true →
       strStartsWith (UcpClient.normalizeDomain domain).1 "http://" = true →
       UcpClient.probeUrls (UcpClient.normalizeDomain domain).1 =
         [(UcpClient.normalizeDomain domain).1 ++ "/.well-known/ucp",
          (UcpClient.normalizeDomain domain).1 ++ "/.well-known/ucp.json"])
    ∧ (∀ domain : String,
       strStartsWith (UcpClient.normalizeDomain domain).1 "http://" = false →
       UcpClient.probeUrls (UcpClient.normalizeDomain domain).1 =
         [(UcpClient.normalizeDomain domain).1 ++ "/.well-known/ucp",
          (UcpClient.normalizeDomain domain).1 ++ "/.well-known/ucp.json",
          ("http://" ++ (UcpClient.normalizeDomain domain).1.drop 8) ++ "/.well-known/ucp",
          ("http://" ++ (UcpClient.normalizeDomain domain).1.drop 8) ++
            "/.well-known/ucp.json"])
    ∧ (∀ (fetchO : UcpClient.ProfileFetch) (domain : String),
       (∀ u ∈ UcpClient.probeUrls (UcpClient.normalizeDomain domain).1, fetchO u = none) →
       UcpClient.discover fetchO domain =
         .error (UcpClient.discoveryErrMsg (UcpClient.normalizeDomain domain).1))
    ∧ (∀ (fetchO : UcpClient.ProfileFetch) (domain : String) (l1 l2 : List String)
         (u : String) (p : UcpProfile),
       UcpClient.probeUrls (UcpClient.normalizeDomain domain).1 = l1 ++ u :: l2 →
       (∀ v ∈ l1, fetchO v = none) → fetchO u = some p →
       (p.ucp = none →
          UcpClient.discover fetchO domain = .error UcpClient.invalidProfileMsg)
       ∧ ∀ root, p.ucp = some root →
           UcpClient.discover fetchO domain =
             .ok { profile := p, profileUrl := u,
                   domain := (UcpClient.normalizeDomain domain).2,
                   version := root.version.getD "unknown",
                   services := UcpClient.normalizeServices root.services,
                   capabilities :=
                     UcpClient.normalizeCapabilities root.version root.capabilities,
                   paymentHandlers := p.paymentHandlers.getD [] }) := by
  refine ⟨?_, ?_, ?_, ?_⟩
  · intro domain _ h2
    simp [UcpClient.probeUrls, UcpClient.probeBases, h2, UcpClient.wellKnownPaths]
  · intro domain h2
    simp [UcpClient.probeUrls, UcpClient.probeBases, h2, UcpClient.wellKnownPaths]
  · intro fetchO domain hall
    rcases hnd : UcpClient.normalizeDomain domain with ⟨baseUrl, cleanDomain⟩
    rw [hnd] at hall
    have hfp := firstProbe_all_none fetchO _ hall
    simp only [UcpClient.discover, hnd, hfp]
  · intro fetchO domain l1 l2 u p hurls h1 hu
    rcases hnd : UcpClient.normalizeDomain domain with ⟨baseUrl, cleanDomain⟩
    rw [hnd] at hurls
    have hfp : UcpClient.firstProbe fetchO (UcpClient.probeUrls baseUrl) = some (u, p) := by
      rw [hurls]; exact firstProbe_append fetchO l1 u l2 p h1 hu
    constructor
    · intro hucp
      simp only [UcpClient.discover, hnd, hfp, hucp]
    · intro root hucp
      simp only [UcpClient.discover, hnd, hfp, hucp]

theorem claim_C5_witness :
    UcpClient.discover c5wFetch "shop.test" =
      .ok { profile := c5Profile,
            profileUrl := "https://shop.test/.well-known/ucp",
            domain := "shop.test", version := "1.0", services := [],
            capabilities := [], paymentHandlers := [] } := by
  have h := (claim_C5_discover_probe_order.2.2.2 c5wFetch "shop.test" []
      ["https://shop.test/.well-known/ucp.json", "http://shop.test/.well-known/ucp",
       "http://shop.test/.well-known/ucp.json"]
      "https://shop.test/.well-known/ucp" c5Profile (by rfl) (by simp) (by rfl)).2
      { version := some "1.0", services := [], capabilities := .arrS [] } (by rfl)
  simpa using h

/-! ### Lemmas about callApi -/

lemma restLeg_attempts (fetchO : FetchOracle) (st : UcpClientState)
    (d : DiscoveryResult) (path httpMethod : String) (opts : UcpClient.CallOpts)
    (acc : List UcpClient.Attempt) :
    (UcpClient.restLeg fetchO st d path httpMethod opts acc).2.2 = acc ∨
    (UcpClient.restLeg fetchO st d path httpMethod opts acc).2.2 =
      acc ++ [.restA path httpMethod] := by
  unfold UcpClient.restLeg
  cases hre : UcpClient.getRestEndpoint? d opts.serviceName with
  | none => exact Or.inl rfl
  | some ep =>
    by_cases he : ep = ""
    · simp [he]
    · cases hfo : fetchO (ep ++ path) httpMethod opts.body with
      | netErr m => simp [he, hfo]
      | http status bodyJson =>
        by_cases hst : isOkStatus status = true
        · simp [he, hfo, hst]
        · simp [he, hfo, hst]

/-- C3.  `callApi` transport policy: with a known (truthy) MCP endpoint,
`auto` attempts the translated JSON-RPC call first; if that attempt fails
it silently retries via REST iff a truthy REST endpoint exists, otherwise
it propagates the MCP error.  Forcing `mcp` without a bound endpoint fails
immediately with no attempt at all, and with a bound endpoint it fails
without a REST fallback.  Forcing `rest` performs only the REST leg —
no JSON-RPC attempt is ever made. -/
theorem claim_C3_transport_policy :
    ∀ (fetchO : FetchOracle) (st : UcpClientState) (preferred : TransportPref)
      (path : String) (opts : UcpClient.CallOpts) (d : DiscoveryResult),
      st.discovery = some d →
      (∀ ep, UcpClient.effTransport preferred opts = .auto →
        UcpClient.getMcpEndpoint? d opts.serviceName = some ep → ep ≠ "" →
        (UcpClient.callApi fetchO st preferred path opts).2.2.head? =
          some (.mcpA (UcpClient.effSpec path opts).method
            (UcpClient.effSpec path opts).params))
      ∧ (∀ ep e, UcpClient.effTransport preferred opts = .auto →
          UcpClient.getMcpEndpoint? d opts.serviceName = some ep → ep ≠ "" →
          (McpClient.call fetchO st ep (UcpClient.effSpec path opts).method
            (UcpClient.effSpec path opts).params).2 = .error e →
          (UcpClient.endpointTruthy (UcpClient.getRestEndpoint? d opts.serviceName) = true →
            UcpClient.callApi fetchO st preferred path opts =
              UcpClient.restLeg fetchO
                (McpClient.call fetchO st ep (UcpClient.effSpec path opts).method
                  (UcpClient.effSpec path opts).params).1
                d path (UcpClient.effMethod opts) opts
                [.mcpA (UcpClient.effSpec path opts).method
                  (UcpClient.effSpec path opts).params])
          ∧ (UcpClient.endpointTruthy (UcpClient.getRestEndpoint? d opts.serviceName) = false →
              UcpClient.callApi fetchO st preferred path opts =
                ((McpClient.call fetchO st ep (UcpClient.effSpec path opts).method
                    (UcpClient.effSpec path opts).params).1, .error e,
                 [.mcpA (UcpClient.effSpec path opts).method
                   (UcpClient.effSpec path opts).params])))
      ∧ (UcpClient.effTransport preferred opts = .mcp →
          (UcpClient.getMcpEndpoint? d opts.serviceName = none ∨
           UcpClient.getMcpEndpoint? d opts.serviceName = some "") →
          UcpClient.callApi fetchO st preferred path opts =
            (st, .error UcpClient.noMcpMsg, []))
      ∧ (∀ ep e, UcpClient.effTransport preferred opts = .mcp →
          UcpClient.getMcpEndpoint? d opts.serviceName = some ep → ep ≠ "" →
          (McpClient.call fetchO st ep (UcpClient.effSpec path opts).method
            (UcpClient.effSpec path opts).params).2 = .error e →
          UcpClient.callApi fetchO st preferred path opts =
            ((McpClient.call fetchO st ep (UcpClient.effSpec path opts).method
                (UcpClient.effSpec path opts).params).1, .error e,
             [.mcpA (UcpClient.effSpec path opts).method
               (UcpClient.effSpec path opts).params]))
      ∧ (UcpClient.effTransport preferred opts = .rest →
          UcpClient.callApi fetchO st preferred path opts =
            UcpClient.restLeg fetchO st d path (UcpClient.effMethod opts) opts []
          ∧ ∀ a ∈ (UcpClient.callApi fetchO st preferred path opts).2.2,
              ∃ pth m, a = .restA pth m) := by
  intro fetchO st preferred path opts d hdisc
  refine ⟨?_, ?_, ?_, ?_, ?_⟩
  · intro ep htr hm hne
    simp only [UcpClient.effTransport] at htr
    simp only [UcpClient.effSpec, UcpClient.effMethod]
    unfold UcpClient.callApi
    rcases hcall : McpClient.call fetchO st ep
      (UcpClient.restPathToMcpCall path
        (opts.method.getD (if opts.body.isSome then "POST" else "GET")) opts.body).method
      (UcpClient.restPathToMcpCall path
        (opts.method.getD (if opts.body.isSome then "POST" else "GET")) opts.body).params
      with ⟨st', r⟩
    cases r with
    | ok v => simp [hdisc, htr, hm, hne, hcall]
    | error e =>
      rcases restLeg_attempts fetchO st' d path
          (opts.method.getD (if opts.body.isSome then "POST" else "GET")) opts
          [.mcpA (UcpClient.restPathToMcpCall path
              (opts.method.getD (if opts.body.isSome then "POST" else "GET")) opts.body).method
            (UcpClient.restPathToMcpCall path
              (opts.method.getD (if opts.body.isSome then "POST" else "GET")) opts.body).params]
          with hra | hra
      all_goals
        by_cases hrt : UcpClient.endpointTruthy
          (UcpClient.getRestEndpoint? d opts.serviceName) = true
      all_goals simp [hdisc, htr, hm, hne, hcall, hra, hrt]
  · intro ep e htr hm hne hcallErr
    simp only [UcpClient.effTransport] at htr
    simp only [UcpClient.effSpec, UcpClient.effMethod] at hcallErr ⊢
    unfold UcpClient.callApi
    rcases hcall : McpClient.call fetchO st ep
      (UcpClient.restPathToMcpCall path
        (opts.method.getD (if opts.body.isSome then "POST" else "GET")) opts.body).method
      (UcpClient.restPathToMcpCall path
        (opts.method.getD (if opts.body.isSome then "POST" else "GET")) opts.body).params
      with ⟨st', r⟩
    rw [hcall] at hcallErr
    simp only at hcallErr
    subst hcallErr
    constructor
    · intro hrt
      simp [hdisc, htr, hm, hne, hcall, hrt]
    · intro hrt
      simp [hdisc, htr, hm, hne, hcall, hrt]
  · intro htr hm
    simp only [UcpClient.effTransport] at htr
    unfold UcpClient.callApi
    rcases hm with hm | hm
    · simp [hdisc, htr, hm]
    · simp [hdisc, htr, hm]
  · intro ep e htr hm hne hcallErr
    simp only [UcpClient.effTransport] at htr
    simp only [UcpClient.effSpec, UcpClient.effMethod] at hcallErr ⊢
    unfold UcpClient.callApi
    rcases hcall : McpClient.call fetchO st ep
      (UcpClient.restPathToMcpCall path
        (opts.method.getD (if opts.body.isSome then "POST" else "GET")) opts.body).method
      (UcpClient.restPathToMcpCall path
        (opts.method.getD (if opts.body.isSome then "POST" else "GET")) opts.body).params
      with ⟨st', r⟩
    rw [hcall] at hcallErr
    simp only at hcallErr
    subst hcallErr
    simp [hdisc, htr, hm, hne, hcall]
  · intro htr
    simp only [UcpClient.effTransport] at htr
    simp only [UcpClient.effMethod]
    have heq : UcpClient.callApi fetchO st preferred path opts =
        UcpClient.restLeg fetchO st d path
          (opts.method.getD (if opts.body.isSome then "POST" else "GET")) opts [] := by
      unfold UcpClient.callApi
      simp [hdisc, htr]
    refine ⟨heq, ?_⟩
    intro a ha
    rw [heq] at ha
    rcases restLeg_attempts fetchO st d path
        (opts.method.getD (if opts.body.isSome then "POST" else "GET")) opts [] with hra | hra
    · rw [hra] at ha; exact absurd ha (List.not_mem_nil a)
    · rw [hra] at ha
      simp at ha
      exact ⟨path, opts.method.getD (if opts.body.isSome then "POST" else "GET"), ha⟩

theorem claim_C3_witness :
    (UcpClient.callApi c3FetchO c3St .auto "/products"
        { transport := some .auto }).2.2.head? =
      some (.mcpA "products/list" (jobj []))
    ∧ UcpClient.callApi c3FetchO c3St .auto "/products" { transport := some .auto } =
        UcpClient.restLeg c3FetchO
          (McpClient.call c3FetchO c3St "https://m.test/mcp" "products/list" (jobj [])).1
          c3Disc "/products" "GET" { transport := some .auto }
          [.mcpA "products/list" (jobj [])]
    ∧ UcpClient.callApi c3FetchO c3StRestOnly .auto "/products"
        { transport := some .mcp } =
      (c3StRestOnly, .error UcpClient.noMcpMsg, [])
    ∧ UcpClient.callApi c3FetchO c3St .auto "/products" { transport := some .rest } =
        UcpClient.restLeg c3FetchO c3St c3Disc "/products" "GET"
          { transport := some .rest } [] := by
  have h := claim_C3_transport_policy c3FetchO c3St .auto "/products"
    { transport := some .auto } c3Disc rfl
  have hm := claim_C3_transport_policy c3FetchO c3StRestOnly .auto "/products"
    { transport := some .mcp } c3DiscRestOnly rfl
  have hr := claim_C3_transport_policy c3FetchO c3St .auto "/products"
    { transport := some .rest } c3Disc rfl
  refine ⟨?_, ?_, ?_, ?_⟩
  · have := h.1 "https://m.test/mcp" rfl rfl (by simp)
    simpa [UcpClient.effSpec, UcpClient.effMethod] using this
  · have := (h.2.1 "https://m.test/mcp" "MCP HTTP error: 500" rfl rfl (by simp)
      (by rfl)).1 (by rfl)
    simpa [UcpClient.effSpec, UcpClient.effMethod] using this
  · exact hm.2.2.1 rfl (Or.inl rfl)
  · exact (hr.2.2.2.2 rfl).1

/-! ### Frame lemmas: tool handlers never touch the loop-owned fields -/

/-- The loop-owned fields (trace, counters) of the agent state. -/
def loopFrame (st st' : ShoppingAgent.AgentSt) : Prop :=
  st'.steps = st.steps ∧ st'.llmCalls = st.llmCalls ∧
  st'.iteration = st.iteration ∧ st'.toolExecs = st.toolExecs

lemma loopFrame_rfl (st : ShoppingAgent.AgentSt) : loopFrame st st :=
  ⟨rfl, rfl, rfl, rfl⟩

lemma frame_productsProbe (env : ShoppingAgent.AgentEnv) (st : ShoppingAgent.AgentSt)
    (acpEp domain : String) :
    loopFrame st (ShoppingAgent.productsProbe env st acpEp domain).1 := by
  simp only [loopFrame, ShoppingAgent.productsProbe]
  repeat' split
  all_goals exact ⟨rfl, rfl, rfl, rfl⟩

lemma frame_discoverMerchant (env : ShoppingAgent.AgentEnv) (st : ShoppingAgent.AgentSt)
    (domain : String) :
    loopFrame st (ShoppingAgent.toolDiscoverMerchant env st domain).1 := by
  simp only [ShoppingAgent.toolDiscoverMerchant]
  repeat' split
  all_goals first
    | exact ⟨rfl, rfl, rfl, rfl⟩
    | apply frame_productsProbe

lemma frame_listCapabilities (st : ShoppingAgent.AgentSt) :
    loopFrame st (ShoppingAgent.toolListCapabilities st).1 := by
  simp only [loopFrame, ShoppingAgent.toolListCapabilities]
  repeat' split
  all_goals exact ⟨rfl, rfl, rfl, rfl⟩

lemma frame_browseProducts (env : ShoppingAgent.AgentEnv) (st : ShoppingAgent.AgentSt)
    (args : Json) : loopFrame st (ShoppingAgent.toolBrowseProducts env st args).1 := by
  simp only [loopFrame, ShoppingAgent.toolBrowseProducts]
  repeat' split
  all_goals exact ⟨rfl, rfl, rfl, rfl⟩

lemma frame_searchProducts (env : ShoppingAgent.AgentEnv) (st : ShoppingAgent.AgentSt)
    (args : Json) : loopFrame st (ShoppingAgent.toolSearchProducts env st args).1 := by
  simp only [loopFrame, ShoppingAgent.toolSearchProducts]
  repeat' split
  all_goals exact ⟨rfl, rfl, rfl, rfl⟩

lemma frame_getProduct (env : ShoppingAgent.AgentEnv) (st : ShoppingAgent.AgentSt)
    (productId : String) : loopFrame st (ShoppingAgent.toolGetProduct env st productId).1 :=
  ⟨rfl, rfl, rfl, rfl⟩

lemma frame_addToCart (st : ShoppingAgent.AgentSt) (args : Json) :
    loopFrame st (ShoppingAgent.toolAddToCart st args).1 :=
  ⟨rfl, rfl, rfl, rfl⟩

lemma frame_viewCart (st : ShoppingAgent.AgentSt) :
    loopFrame st (ShoppingAgent.toolViewCart st).1 :=
  ⟨rfl, rfl, rfl, rfl⟩

lemma frame_removeFromCart (st : ShoppingAgent.AgentSt) (productId : String) :
    loopFrame st (ShoppingAgent.toolRemoveFromCart st productId).1 := by
  simp only [loopFrame, ShoppingAgent.toolRemoveFromCart]
  repeat' split
  all_goals exact ⟨rfl, rfl, rfl, rfl⟩

lemma frame_initiateCheckout (env : ShoppingAgent.AgentEnv) (st : ShoppingAgent.AgentSt) :
    loopFrame st (ShoppingAgent.toolInitiateCheckout env st).1 := by
  simp only [loopFrame, ShoppingAgent.toolInitiateCheckout]
  repeat' split
  all_goals exact ⟨rfl, rfl, rfl, rfl⟩

lemma frame_submitShipping (env : ShoppingAgent.AgentEnv) (st : ShoppingAgent.AgentSt)
    (address : Json) : loopFrame st (ShoppingAgent.toolSubmitShipping env st address).1 := by
  simp only [loopFrame, ShoppingAgent.toolSubmitShipping]
  repeat' split
  all_goals exact ⟨rfl, rfl, rfl, rfl⟩

lemma frame_submitPayment (env : ShoppingAgent.AgentEnv) (st : ShoppingAgent.AgentSt)
    (args : Json) : loopFrame st (ShoppingAgent.toolSubmitPayment env st args).1 := by
  simp only [loopFrame, ShoppingAgent.toolSubmitPayment]
  repeat' split
  all_goals exact ⟨rfl, rfl, rfl, rfl⟩

lemma frame_getOrderStatus (st : ShoppingAgent.AgentSt) (orderId : String) :
    loopFrame st (ShoppingAgent.toolGetOrderStatus st orderId).1 := by
  simp only [loopFrame, ShoppingAgent.toolGetOrderStatus]
  repeat' split
  all_goals exact ⟨rfl, rfl, rfl, rfl⟩

lemma executeToolE_frame (env : ShoppingAgent.AgentEnv) (st : ShoppingAgent.AgentSt)
    (tc : ToolCall) : loopFrame st (ShoppingAgent.executeToolE env st tc).1 := by
  simp only [ShoppingAgent.executeToolE]
  by_cases h1 : tc.name = "discover_merchant"
  · simp only [if_pos h1]; apply frame_discoverMerchant
  simp only [if_neg h1]
  by_cases h2 : tc.name = "list_capabilities"
  · simp only [if_pos h2]; apply frame_listCapabilities
  simp only [if_neg h2]
  by_cases h3 : tc.name = "browse_products"
  · simp only [if_pos h3]; apply frame_browseProducts
  simp only [if_neg h3]
  by_cases h4 : tc.name = "search_products"
  · simp only [if_pos h4]; apply frame_searchProducts
  simp only [if_neg h4]
  by_cases h5 : tc.name = "get_product"
  · simp only [if_pos h5]; apply frame_getProduct
  simp only [if_neg h5]
  by_cases h6 : tc.name = "add_to_cart"
  · simp only [if_pos h6]; apply frame_addToCart
  simp only [if_neg h6]
  by_cases h7 : tc.name = "view_cart"
  · simp only [if_pos h7]; apply frame_viewCart
  simp only [if_neg h7]
  by_cases h8 : tc.name = "remove_from_cart"
  · simp only [if_pos h8]; apply frame_removeFromCart
  simp only [if_neg h8]
  by_cases h9 : tc.name = "initiate_checkout"
  · simp only [if_pos h9]; apply frame_initiateCheckout
  simp only [if_neg h9]
  by_cases h10 : tc.name = "submit_shipping"
  · simp only [if_pos h10]; apply frame_submitShipping
  simp only [if_neg h10]
  by_cases h11 : tc.name = "submit_payment"
  · simp only [if_pos h11]; apply frame_submitPayment
  simp only [if_neg h11]
  by_cases h12 : tc.name = "get_order_status"
  · simp only [if_pos h12]; apply frame_getOrderStatus
  simp only [if_neg h12]
  cases hp : env.plugins.find? fun p => p.1 = tc.name with
  | some pl => simp only [hp]; exact ⟨rfl, rfl, rfl, rfl⟩
  | none => simp only [hp]; exact ⟨rfl, rfl, rfl, rfl⟩

/-- C8.  Checkout fails atomically with error payloads:
`initiate_checkout` on an empty cart returns an error payload with the
state (in particular the session id) untouched; `submit_payment` without a
stored shipping address returns the shipping error payload regardless of
the bound protocol, with the state untouched; and a `submit_payment` whose
merchant call fails (on either protocol) returns an error payload, creates
no order, and leaves cart, session id and shipping address unchanged. -/
theorem claim_C8_checkout_atomicity :
    ∀ (env : ShoppingAgent.AgentEnv) (st : ShoppingAgent.AgentSt) (args : Json),
      (st.cart = [] →
        ShoppingAgent.toolInitiateCheckout env st =
          (st, .ok (errObj "Cart is empty. Add items before checking out.")))
      ∧ (optTruthy st.checkoutSessionId = true →
          optTruthy st.shippingAddress = false →
          ShoppingAgent.toolSubmitPayment env st args =
            (st, .ok (errObj
              "Shipping address required before payment. Call submit_shipping first.")))
      ∧ (∀ e, optTruthy st.checkoutSessionId = true →
          optTruthy st.shippingAddress = true →
          st.protocol = some .acp → env.acpEndpoint.isSome = true →
          ShoppingAgent.acpPaymentCall env st args = .error e →
          ShoppingAgent.toolSubmitPayment env st args =
            (st, .ok (errObj ("ACP payment failed: " ++ e))))
      ∧ (∀ e, optTruthy st.checkoutSessionId = true →
          optTruthy st.shippingAddress = true →
          ¬ (st.protocol = some .acp ∧ env.acpEndpoint.isSome = true) →
          (ShoppingAgent.ucpPaymentCall env st args).2.1 = .error e →
          ShoppingAgent.toolSubmitPayment env st args =
            ({ st with client := (ShoppingAgent.ucpPaymentCall env st args).1 },
             .ok (errObj ("Payment failed: " ++ e)))
          ∧ (ShoppingAgent.toolSubmitPayment env st args).1.cart = st.cart
          ∧ (ShoppingAgent.toolSubmitPayment env st args).1.checkoutSessionId =
              st.checkoutSessionId
          ∧ (ShoppingAgent.toolSubmitPayment env st args).1.shippingAddress =
              st.shippingAddress
          ∧ (ShoppingAgent.toolSubmitPayment env st args).1.orders = st.orders) := by
  intro env st args
  refine ⟨?_, ?_, ?_, ?_⟩
  · intro hcart
    simp [ShoppingAgent.toolInitiateCheckout, hcart]
  · intro hsid hship
    simp [ShoppingAgent.toolSubmitPayment, hsid, hship]
  · intro e hsid hship hp ha hcall
    simp [ShoppingAgent.toolSubmitPayment, hsid, hship, hp, ha, hcall]
  · intro e hsid hship hnp hcall
    rcases hc : ShoppingAgent.ucpPaymentCall env st args with ⟨cst, r, att⟩
    rw [hc] at hcall
    simp only at hcall
    subst hcall
    have heq : ShoppingAgent.toolSubmitPayment env st args =
        ({ st with client := cst }, .ok (errObj ("Payment failed: " ++ e))) := by
      simp [ShoppingAgent.toolSubmitPayment, hsid, hship, hnp, hc]
    exact ⟨heq, by rw [heq], by rw [heq], by rw [heq], by rw [heq]⟩

theorem claim_C8_witness :
    ShoppingAgent.toolInitiateCheckout baseEnv ShoppingAgent.AgentSt.init =
      (ShoppingAgent.AgentSt.init,
       .ok (errObj "Cart is empty. Add items before checking out."))
    ∧ ShoppingAgent.toolSubmitPayment baseEnv c8StNoShip c8Args =
        (c8StNoShip,
         .ok (errObj
           "Shipping address required before payment. Call submit_shipping first."))
    ∧ ShoppingAgent.toolSubmitPayment c8EnvAcp c8StReadyAcp c8Args =
        (c8StReadyAcp,
         .ok (errObj ("ACP payment failed: " ++ "down")))
    ∧ ShoppingAgent.toolSubmitPayment baseEnv c8StReady c8Args =
        ({ c8StReady with
           client := (ShoppingAgent.ucpPaymentCall baseEnv c8StReady c8Args).1 },
         .ok (errObj ("Payment failed: " ++ UcpClient.noDiscoveryMsg)))
    ∧ (ShoppingAgent.toolSubmitPayment baseEnv c8StReady c8Args).1.orders =
        c8StReady.orders := by
  have h1 := (claim_C8_checkout_atomicity baseEnv ShoppingAgent.AgentSt.init c8Args).1 rfl
  have h2 := (claim_C8_checkout_atomicity baseEnv c8StNoShip c8Args).2.1 rfl rfl
  have h3 := (claim_C8_checkout_atomicity c8EnvAcp c8StReadyAcp c8Args).2.2.1 "down"
    rfl rfl rfl rfl (by rfl)
  have h4 := (claim_C8_checkout_atomicity baseEnv c8StReady c8Args).2.2.2
    UcpClient.noDiscoveryMsg rfl rfl (by simp [baseEnv, c8StReady, c8StNoShip,
      ShoppingAgent.AgentSt.init]) (by rfl)
  exact ⟨h1, h2, h3, h4.1, h4.2.2.2.2⟩

/-! ### One pass of the tool loop -/

/-- Observable effect of processing a single tool call in the loop: a
`tool_call` step and a `tool_result` step are appended (the latter carrying
the payload — the tool's result, or its thrown error converted by the
loop-level catch), and one tool message with the stringified payload tagged
by the tool name is appended to the history. -/
lemma execToolCalls_single (env : ShoppingAgent.AgentEnv) (st : ShoppingAgent.AgentSt)
    (msgs : List ChatMessage) (tc : ToolCall) :
    (ShoppingAgent.execToolCalls env st msgs [tc]).1.steps =
      st.steps ++
        [{ iteration := st.iteration, type := .tool_call, toolName := some tc.name,
           toolInput := some tc.arguments },
         { iteration := st.iteration, type := .tool_result, toolName := some tc.name,
           toolOutput := some (ShoppingAgent.resultPayload
             (ShoppingAgent.executeToolE env
               (ShoppingAgent.recordStep st .tool_call (some tc.name)
                 (some tc.arguments) none none) tc).2) }]
    ∧ (ShoppingAgent.execToolCalls env st msgs [tc]).2 =
        msgs ++ [{ role := .tool,
                   content := stringify (ShoppingAgent.resultPayload
                     (ShoppingAgent.executeToolE env
                       (ShoppingAgent.recordStep st .tool_call (some tc.name)
                         (some tc.arguments) none none) tc).2),
                   toolCallId := some tc.name }] := by
  have hframe := executeToolE_frame env
    (ShoppingAgent.recordStep st .tool_call (some tc.name) (some tc.arguments) none none) tc
  rcases hex : ShoppingAgent.executeToolE env
      (ShoppingAgent.recordStep st .tool_call (some tc.name) (some tc.arguments) none none) tc
    with ⟨st1, r⟩
  rw [hex] at hframe
  obtain ⟨hsteps, _, hiter, _⟩ := hframe
  simp only [ShoppingAgent.recordStep] at hsteps hiter
  constructor
  · simp only [ShoppingAgent.execToolCalls]
    rw [hex]
    simp only [ShoppingAgent.execToolCalls, ShoppingAgent.recordStep, hsteps, hiter,
      List.append_assoc, List.cons_append, List.nil_append]
  · simp only [ShoppingAgent.execToolCalls]
    rw [hex]

/-- C2.  Any error thrown while executing a dispatched tool (built-in or
plugin) is caught inside the loop, replaced by an `{error: <message>}`
payload, recorded as a `tool_result` step, appended to the history as a
tool message, and the loop continues with the remaining calls; a tool call
whose name matches no built-in tool and no registered plugin yields an
`{error: "Unknown tool: <name>"}` payload. -/
theorem claim_C2_tool_errors_contained :
    ∀ (env : ShoppingAgent.AgentEnv) (st : ShoppingAgent.AgentSt)
      (msgs : List ChatMessage) (tc : ToolCall) (rest : List ToolCall),
      (ShoppingAgent.execToolCalls env st msgs (tc :: rest) =
        (let stA := ShoppingAgent.recordStep st .tool_call (some tc.name)
          (some tc.arguments) none none
        let pr := ShoppingAgent.executeToolE env stA tc
        let payload := ShoppingAgent.resultPayload pr.2
        let stB := ShoppingAgent.recordStep
          { pr.1 with toolExecs := pr.1.toolExecs ++ [(tc.name, payload)] }
          .tool_result (some tc.name) none (some payload) none
        ShoppingAgent.execToolCalls env stB
          (msgs ++ [{ role := .tool, content := stringify payload,
                      toolCallId := some tc.name }]) rest))
      ∧ ((ShoppingAgent.execToolCalls env st msgs [tc]).1.steps =
          st.steps ++
            [{ iteration := st.iteration, type := .tool_call, toolName := some tc.name,
               toolInput := some tc.arguments },
             { iteration := st.iteration, type := .tool_result, toolName := some tc.name,
               toolOutput := some (ShoppingAgent.resultPayload
                 (ShoppingAgent.executeToolE env
                   (ShoppingAgent.recordStep st .tool_call (some tc.name)
                     (some tc.arguments) none none) tc).2) }])
      ∧ (∀ e st', ShoppingAgent.executeToolE env
            (ShoppingAgent.recordStep st .tool_call (some tc.name)
              (some tc.arguments) none none) tc = (st', .error e) →
          (ShoppingAgent.execToolCalls env st msgs [tc]).1.steps =
            st.steps ++
              [{ iteration := st.iteration, type := .tool_call, toolName := some tc.name,
                 toolInput := some tc.arguments },
               { iteration := st.iteration, type := .tool_result,
                 toolName := some tc.name, toolOutput := some (errObj e) }])
      ∧ (tc.name ∉ ShoppingAgent.builtinToolNames →
          (env.plugins.find? fun p => p.1 = tc.name) = none →
          ShoppingAgent.executeToolE env st tc =
            (st, .ok (errObj ("Unknown tool: " ++ tc.name)))) := by
  intro env st msgs tc rest
  refine ⟨rfl, (execToolCalls_single env st msgs tc).1, ?_, ?_⟩
  · intro e st' h
    have hb := (execToolCalls_single env st msgs tc).1
    rw [h] at hb
    simpa [ShoppingAgent.resultPayload] using hb
  · intro hname hplug
    simp only [ShoppingAgent.builtinToolNames, List.mem_cons, List.not_mem_nil,
      or_false, not_or] at hname
    obtain ⟨n1, n2, n3, n4, n5, n6, n7, n8, n9, n10, n11, n12⟩ := hname
    simp only [ShoppingAgent.executeToolE, if_neg n1, if_neg n2, if_neg n3, if_neg n4,
      if_neg n5, if_neg n6, if_neg n7, if_neg n8, if_neg n9, if_neg n10, if_neg n11,
      if_neg n12, hplug]

theorem claim_C2_witness :
    ShoppingAgent.executeToolE baseEnv ShoppingAgent.AgentSt.init cexCall =
      (ShoppingAgent.AgentSt.init, .ok (errObj ("Unknown tool: " ++ "noop")))
    ∧ (ShoppingAgent.execToolCalls baseEnv ShoppingAgent.AgentSt.init [] [cexCall]).1.steps =
        [{ iteration := 0, type := .tool_call, toolName := some "noop",
           toolInput := some (jobj []) },
         { iteration := 0, type := .tool_result, toolName := some "noop",
           toolOutput := some (ShoppingAgent.resultPayload
             (ShoppingAgent.executeToolE baseEnv
               (ShoppingAgent.recordStep ShoppingAgent.AgentSt.init .tool_call
                 (some "noop") (some (jobj [])) none none) cexCall).2) }] := by
  have h := claim_C2_tool_errors_contained baseEnv ShoppingAgent.AgentSt.init [] cexCall []
  refine ⟨?_, ?_⟩
  · simpa [cexCall] using h.2.2.2 (by decide) (by rfl)
  · simpa [cexCall, ShoppingAgent.AgentSt.init] using h.2.1

/-! ### Loop counters -/

lemma execToolCalls_counters (env : ShoppingAgent.AgentEnv) :
    ∀ (tcs : List ToolCall) (st : ShoppingAgent.AgentSt) (msgs : List ChatMessage),
      (ShoppingAgent.execToolCalls env st msgs tcs).1.llmCalls = st.llmCalls ∧
      (ShoppingAgent.execToolCalls env st msgs tcs).1.iteration = st.iteration := by
  intro tcs
  induction tcs with
  | nil => intro st msgs; exact ⟨rfl, rfl⟩
  | cons tc rest ih =>
    intro st msgs
    have hframe := executeToolE_frame env
      (ShoppingAgent.recordStep st .tool_call (some tc.name) (some tc.arguments) none none) tc
    rcases hex : ShoppingAgent.executeToolE env
        (ShoppingAgent.recordStep st .tool_call (some tc.name) (some tc.arguments) none none)
        tc with ⟨st1, r⟩
    rw [hex] at hframe
    obtain ⟨_, hcalls, hiter, _⟩ := hframe
    simp only [ShoppingAgent.recordStep] at hcalls hiter
    simp only [ShoppingAgent.execToolCalls]
    rw [hex]
    have := ih (ShoppingAgent.recordStep
      { st1 with toolExecs := st1.toolExecs ++ [(tc.name, ShoppingAgent.resultPayload r)] }
      .tool_result (some tc.name) none (some (ShoppingAgent.resultPayload r)) none)
      (msgs ++ [{ role := .tool, content := stringify (ShoppingAgent.resultPayload r),
                  toolCallId := some tc.name }])
    simp only [ShoppingAgent.recordStep] at this
    exact ⟨this.1.trans hcalls, this.2.trans hiter⟩

lemma runLoop_counters (env : ShoppingAgent.AgentEnv) (maxIterations : Nat) :
    ∀ (fuel : Nat) (st : ShoppingAgent.AgentSt) (msgs : List ChatMessage),
      (ShoppingAgent.runLoop env maxIterations st msgs fuel).2.llmCalls ≤
        st.llmCalls + fuel ∧
      (ShoppingAgent.runLoop env maxIterations st msgs fuel).1.iterations =
        (ShoppingAgent.runLoop env maxIterations st msgs fuel).2.iteration ∧
      (ShoppingAgent.runLoop env maxIterations st msgs fuel).2.iteration ≤
        st.iteration + fuel := by
  intro fuel
  induction fuel with
  | zero => intro st msgs; exact ⟨Nat.le_refl _, rfl, Nat.le_refl _⟩
  | succ fuel ih =>
    intro st msgs
    have hlc : (if (env.chat msgs).content ≠ "" then
        ShoppingAgent.recordStep
          { st with iteration := st.iteration + 1, llmCalls := st.llmCalls + 1 }
          .thinking none none none (some (env.chat msgs).content)
      else { st with iteration := st.iteration + 1,
                     llmCalls := st.llmCalls + 1 }).llmCalls = st.llmCalls + 1 := by
      split <;> rfl
    have hit : (if (env.chat msgs).content ≠ "" then
        ShoppingAgent.recordStep
          { st with iteration := st.iteration + 1, llmCalls := st.llmCalls + 1 }
          .thinking none none none (some (env.chat msgs).content)
      else { st with iteration := st.iteration + 1,
                     llmCalls := st.llmCalls + 1 }).iteration = st.iteration + 1 := by
      split <;> rfl
    simp only [ShoppingAgent.runLoop]
    by_cases hstop : (env.chat msgs).finishReason = .stop ∨ (env.chat msgs).toolCalls = []
    · simp only [hstop, if_true]
      exact ⟨by omega, rfl, by omega⟩
    · simp only [hstop, if_false]
      have hcnt := execToolCalls_counters env (env.chat msgs).toolCalls
        (if (env.chat msgs).content ≠ "" then
          ShoppingAgent.recordStep
            { st with iteration := st.iteration + 1, llmCalls := st.llmCalls + 1 }
            .thinking none none none (some (env.chat msgs).content)
        else { st with iteration := st.iteration + 1, llmCalls := st.llmCalls + 1 })
        (msgs ++ [{ role := .assistant, content := (env.chat msgs).content,
                    toolCalls := (env.chat msgs).toolCalls }])
      have hrec := ih
        (ShoppingAgent.execToolCalls env
          (if (env.chat msgs).content ≠ "" then
            ShoppingAgent.recordStep
              { st with iteration := st.iteration + 1, llmCalls := st.llmCalls + 1 }
              .thinking none none none (some (env.chat msgs).content)
          else { st with iteration := st.iteration + 1, llmCalls := st.llmCalls + 1 })
          (msgs ++ [{ role := .assistant, content := (env.chat msgs).content,
                      toolCalls := (env.chat msgs).toolCalls }])
          (env.chat msgs).toolCalls).1
        (ShoppingAgent.execToolCalls env
          (if (env.chat msgs).content ≠ "" then
            ShoppingAgent.recordStep
              { st with iteration := st.iteration + 1, llmCalls := st.llmCalls + 1 }
              .thinking none none none (some (env.chat msgs).content)
          else { st with iteration := st.iteration + 1, llmCalls := st.llmCalls + 1 })
          (msgs ++ [{ role := .assistant, content := (env.chat msgs).content,
                      toolCalls := (env.chat msgs).toolCalls }])
          (env.chat msgs).toolCalls).2
      refine ⟨by omega, hrec.2.1, by omega⟩

lemma runLoop_exhaust (env : ShoppingAgent.AgentEnv) (maxIterations : Nat)
    (H : ∀ msgs, (env.chat msgs).finishReason ≠ .stop ∧ (env.chat msgs).toolCalls ≠ []) :
    ∀ (fuel : Nat) (st : ShoppingAgent.AgentSt) (msgs : List ChatMessage),
      (ShoppingAgent.runLoop env maxIterations st msgs fuel).1.success = false ∧
      (ShoppingAgent.runLoop env maxIterations st msgs fuel).1.answer =
        ShoppingAgent.maxIterMsg maxIterations ∧
      (ShoppingAgent.runLoop env maxIterations st msgs fuel).1.iterations =
        st.iteration + fuel := by
  intro fuel
  induction fuel with
  | zero => intro st msgs; exact ⟨rfl, rfl, rfl⟩
  | succ fuel ih =>
    intro st msgs
    obtain ⟨h1, h2⟩ := H msgs
    have hstop : ¬ ((env.chat msgs).finishReason = .stop ∨ (env.chat msgs).toolCalls = []) := by
      simp [h1, h2]
    have hit : (if (env.chat msgs).content ≠ "" then
        ShoppingAgent.recordStep
          { st with iteration := st.iteration + 1, llmCalls := st.llmCalls + 1 }
          .thinking none none none (some (env.chat msgs).content)
      else { st with iteration := st.iteration + 1,
                     llmCalls := st.llmCalls + 1 }).iteration = st.iteration + 1 := by
      split <;> rfl
    simp only [ShoppingAgent.runLoop, hstop, if_false]
    have hcnt := execToolCalls_counters env (env.chat msgs).toolCalls
      (if (env.chat msgs).content ≠ "" then
        ShoppingAgent.recordStep
          { st with iteration := st.iteration + 1, llmCalls := st.llmCalls + 1 }
          .thinking none none none (some (env.chat msgs).content)
      else { st with iteration := st.iteration + 1, llmCalls := st.llmCalls + 1 })
      (msgs ++ [{ role := .assistant, content := (env.chat msgs).content,
                  toolCalls := (env.chat msgs).toolCalls }])
    have hrec := ih
      (ShoppingAgent.execToolCalls env
        (if (env.chat msgs).content ≠ "" then
          ShoppingAgent.recordStep
            { st with iteration := st.iteration + 1, llmCalls := st.llmCalls + 1 }
            .thinking none none none (some (env.chat msgs).content)
        else { st with iteration := st.iteration + 1, llmCalls := st.llmCalls + 1 })
        (msgs ++ [{ role := .assistant, content := (env.chat msgs).content,
                    toolCalls := (env.chat msgs).toolCalls }])
        (env.chat msgs).toolCalls).1
      (ShoppingAgent.execToolCalls env
        (if (env.chat msgs).content ≠ "" then
          ShoppingAgent.recordStep
            { st with iteration := st.iteration + 1, llmCalls := st.llmCalls + 1 }
            .thinking none none none (some (env.chat msgs).content)
        else { st with iteration := st.iteration + 1, llmCalls := st.llmCalls + 1 })
        (msgs ++ [{ role := .assistant, content := (env.chat msgs).content,
                    toolCalls := (env.chat msgs).toolCalls }])
        (env.chat msgs).toolCalls).2
    exact ⟨hrec.1, hrec.2.1, by omega⟩

/-- C1.  One `run()` makes at most `maxIterations` LLM chat calls (and
reports at most that many iterations); if the adapter never terminates —
every response neither signals stop nor comes without tool calls — `run`
returns a normal `AgentResult` with `success = false`, the explanatory
max-iterations answer and `iterations = maxIterations` (by construction
`run` is a total function: no exception escapes). -/
theorem claim_C1_iteration_bound :
    ∀ (env : ShoppingAgent.AgentEnv) (maxIterations : Nat)
      (st0 : ShoppingAgent.AgentSt) (task : String),
      ((ShoppingAgent.run env maxIterations st0 task).2.llmCalls ≤ maxIterations
       ∧ (ShoppingAgent.run env maxIterations st0 task).1.iterations ≤ maxIterations)
      ∧ ((∀ msgs, (env.chat msgs).finishReason ≠ .stop ∧ (env.chat msgs).toolCalls ≠ []) →
          (ShoppingAgent.run env maxIterations st0 task).1.success = false
          ∧ (ShoppingAgent.run env maxIterations st0 task).1.answer =
              ShoppingAgent.maxIterMsg maxIterations
          ∧ (ShoppingAgent.run env maxIterations st0 task).1.iterations = maxIterations) := by
  intro env maxIterations st0 task
  have hcnt := runLoop_counters env maxIterations maxIterations
    { st0 with iteration := 0, llmCalls := 0, toolExecs := [] }
    [{ role := .user, content := task }]
  constructor
  · exact ⟨by simpa [ShoppingAgent.run] using hcnt.1,
           by have := hcnt.2.1; have h3 := hcnt.2.2
              simp only [ShoppingAgent.run] at *
              omega⟩
  · intro H
    have hex := runLoop_exhaust env maxIterations H maxIterations
      { st0 with iteration := 0, llmCalls := 0, toolExecs := [] }
      [{ role := .user, content := task }]
    exact ⟨hex.1, hex.2.1, by simpa [ShoppingAgent.run] using hex.2.2⟩

theorem claim_C1_witness :
    (ShoppingAgent.run ntEnv 2 ShoppingAgent.AgentSt.init "t").1.success = false
    ∧ (ShoppingAgent.run ntEnv 2 ShoppingAgent.AgentSt.init "t").1.answer =
        ShoppingAgent.maxIterMsg 2
    ∧ (ShoppingAgent.run ntEnv 2 ShoppingAgent.AgentSt.init "t").1.iterations = 2
    ∧ (ShoppingAgent.run ntEnv 2 ShoppingAgent.AgentSt.init "t").2.llmCalls ≤ 2 := by
  have h := claim_C1_iteration_bound ntEnv 2 ShoppingAgent.AgentSt.init "t"
  have hH : ∀ msgs, (ntEnv.chat msgs).finishReason ≠ .stop ∧
      (ntEnv.chat msgs).toolCalls ≠ [] := by
    intro msgs
    constructor
    · simp [ntEnv, baseEnv]
    · simp [ntEnv, baseEnv]
  exact ⟨(h.2 hH).1, (h.2 hH).2.1, (h.2 hH).2.2, h.1.1⟩

/-! ### run vs runStream -/

/-- The tool loops of `run` and `runStream` drive the state and history
identically; the streaming one only adds events. -/
lemma execToolCallsStream_eq (env : ShoppingAgent.AgentEnv) :
    ∀ (tcs : List ToolCall) (st : ShoppingAgent.AgentSt) (msgs : List ChatMessage),
      (ShoppingAgent.execToolCallsStream env st msgs tcs).2 =
        ShoppingAgent.execToolCalls env st msgs tcs := by
  intro tcs
  induction tcs with
  | nil => intro st msgs; rfl
  | cons tc rest ih =>
    intro st msgs
    simp only [ShoppingAgent.execToolCallsStream, ShoppingAgent.execToolCalls]
    rcases hex : ShoppingAgent.executeToolE env
        (ShoppingAgent.recordStep st .tool_call (some tc.name) (some tc.arguments) none none)
        tc with ⟨st1, r⟩
    exact ih _ _

/-- C4 counterexample.  An adapter answering `finishReason = stop`
together with one (unknown-name) tool call: `run` terminates successfully
after one iteration (its guard also checks the finish reason), while
`runStream` — whose guard checks only for an empty tool-call list —
executes the tool and loops until the iteration cap, ending with
`success = false` after 2 iterations.  The two final `AgentResult`s
differ. -/
theorem claim_C4_counterexample :
    (ShoppingAgent.run c4Env 2 ShoppingAgent.AgentSt.init "t").1.success = true
    ∧ (ShoppingAgent.run c4Env 2 ShoppingAgent.AgentSt.init "t").1.iterations = 1
    ∧ (ShoppingAgent.runStream c4Env 2 ShoppingAgent.AgentSt.init "t").2.1.success = false
    ∧ (ShoppingAgent.runStream c4Env 2 ShoppingAgent.AgentSt.init "t").2.1.iterations = 2
    ∧ (ShoppingAgent.run c4Env 2 ShoppingAgent.AgentSt.init "t").1 ≠
        (ShoppingAgent.runStream c4Env 2 ShoppingAgent.AgentSt.init "t").2.1 := by
  have h1 : (ShoppingAgent.run c4Env 2 ShoppingAgent.AgentSt.init "t").1.success = true := rfl
  have h2 : (ShoppingAgent.runStream c4Env 2 ShoppingAgent.AgentSt.init "t").2.1.success =
      false := rfl
  refine ⟨h1, rfl, h2, rfl, ?_⟩
  intro h
  rw [h] at h1
  rw [h2] at h1
  exact Bool.noConfusion h1

/-- The streaming loop for a buffered adapter computes the same result and
final state as the buffered loop, provided the adapter never combines
`finishReason = stop` with a nonempty tool-call list. -/
lemma runStreamLoop_eq_runLoop (env : ShoppingAgent.AgentEnv) (maxIterations : Nat)
    (H : ∀ msgs, (env.chat msgs).finishReason = .stop → (env.chat msgs).toolCalls = []) :
    ∀ (fuel : Nat) (st : ShoppingAgent.AgentSt) (msgs : List ChatMessage),
      (ShoppingAgent.runStreamLoop env maxIterations st msgs fuel).2 =
        ShoppingAgent.runLoop env maxIterations st msgs fuel := by
  intro fuel
  induction fuel with
  | zero => intro st msgs; rfl
  | succ fuel ih =>
    intro st msgs
    simp only [ShoppingAgent.runStreamLoop, ShoppingAgent.runLoop]
    by_cases ht : (env.chat msgs).toolCalls = []
    · simp only [ht, eq_self_iff_true, if_true, or_true]
    · have hns : ¬ (env.chat msgs).finishReason = .stop := fun hs => ht (H msgs hs)
      simp only [ht, hns, or_false, if_false]
      have heq := execToolCallsStream_eq env (env.chat msgs).toolCalls
        (if (env.chat msgs).content ≠ "" then
          ShoppingAgent.recordStep
            { st with iteration := st.iteration + 1, llmCalls := st.llmCalls + 1 }
            .thinking none none none (some (env.chat msgs).content)
        else { st with iteration := st.iteration + 1, llmCalls := st.llmCalls + 1 })
        (msgs ++ [{ role := .assistant, content := (env.chat msgs).content,
                    toolCalls := (env.chat msgs).toolCalls }])
      show (ShoppingAgent.runStreamLoop env maxIterations
          ((ShoppingAgent.execToolCallsStream env
            (if (env.chat msgs).content ≠ "" then
              ShoppingAgent.recordStep
                { st with iteration := st.iteration + 1, llmCalls := st.llmCalls + 1 }
                .thinking none none none (some (env.chat msgs).content)
            else { st with iteration := st.iteration + 1, llmCalls := st.llmCalls + 1 })
            (msgs ++ [{ role := .assistant, content := (env.chat msgs).content,
                        toolCalls := (env.chat msgs).toolCalls }])
            (env.chat msgs).toolCalls).2).1
          ((ShoppingAgent.execToolCallsStream env
            (if (env.chat msgs).content ≠ "" then
              ShoppingAgent.recordStep
                { st with iteration := st.iteration + 1, llmCalls := st.llmCalls + 1 }
                .thinking none none none (some (env.chat msgs).content)
            else { st with iteration := st.iteration + 1, llmCalls := st.llmCalls + 1 })
            (msgs ++ [{ role := .assistant, content := (env.chat msgs).content,
                        toolCalls := (env.chat msgs).toolCalls }])
            (env.chat msgs).toolCalls).2).2
          fuel).2 =
        ShoppingAgent.runLoop env maxIterations
          ((ShoppingAgent.execToolCalls env
            (if (env.chat msgs).content ≠ "" then
              ShoppingAgent.recordStep
                { st with iteration := st.iteration + 1, llmCalls := st.llmCalls + 1 }
                .thinking none none none (some (env.chat msgs).content)
            else { st with iteration := st.iteration + 1, llmCalls := st.llmCalls + 1 })
            (msgs ++ [{ role := .assistant, content := (env.chat msgs).content,
                        toolCalls := (env.chat msgs).toolCalls }])
            (env.chat msgs).toolCalls).1)
          ((ShoppingAgent.execToolCalls env
            (if (env.chat msgs).content ≠ "" then
              ShoppingAgent.recordStep
                { st with iteration := st.iteration + 1, llmCalls := st.llmCalls + 1 }
                .thinking none none none (some (env.chat msgs).content)
            else { st with iteration := st.iteration + 1, llmCalls := st.llmCalls + 1 })
            (msgs ++ [{ role := .assistant, content := (env.chat msgs).content,
                        toolCalls := (env.chat msgs).toolCalls }])
            (env.chat msgs).toolCalls).2)
          fuel
      rw [heq]
      exact ih _ _

/-- C4 (amended).  For every task and every buffered adapter whose
responses never combine `finishReason = stop` with a nonempty tool-call
list, `run(task)` and consuming `runStream(task)` to completion drive the
same state machine: the final results (success flag, answer, iteration
count, step trace) and final states (including the instrumented sequences
of LLM calls and tool executions) are equal. -/
theorem claim_C4_run_runStream_equiv :
    ∀ (env : ShoppingAgent.AgentEnv) (maxIterations : Nat)
      (st0 : ShoppingAgent.AgentSt) (task : String),
      (∀ msgs, (env.chat msgs).finishReason = .stop → (env.chat msgs).toolCalls = []) →
      (ShoppingAgent.runStream env maxIterations st0 task).2 =
        ShoppingAgent.run env maxIterations st0 task := by
  intro env maxIterations st0 task H
  exact runStreamLoop_eq_runLoop env maxIterations H maxIterations
    { st0 with iteration := 0, llmCalls := 0, toolExecs := [] }
    [{ role := .user, content := task }]

theorem claim_C4_witness :
    (ShoppingAgent.runStream c4wEnv 3 ShoppingAgent.AgentSt.init "t").2 =
      ShoppingAgent.run c4wEnv 3 ShoppingAgent.AgentSt.init "t" :=
  claim_C4_run_runStream_equiv c4wEnv 3 ShoppingAgent.AgentSt.init "t"
    (fun _ _ => rfl)

end Agorio
